import Mathlib

/-!
Verification development for the Image Augmenter repository.

The Python sources (src/core/augmentations.py, src/core/image_processor.py,
src/core/batch_generator.py, src/utils/helpers.py, src/config/settings.py)
are shallowly embedded below.  Images are in-memory RGB rasters (a width, a
height and a row-major pixel list).  Python floats are idealised as exact
rationals; Python exceptions become an explicit `PyErr` error type carried by
`Except`.  Calls into the third-party libraries (OpenCV's warpAffine and
filter2D, Pillow's Gaussian blur and Lanczos resampling, NumPy's normal
sampler) whose pixel-level output no claim inspects are gathered into a
`LibPrims` record of total functions; the library behaviours the claims do
depend on (Pillow's nearest-neighbour resize including its
"height and width must be > 0" size check, `Image.blend`'s clamping,
`ImageEnhance` degenerate images, Python `dict.get` / truthiness semantics)
are embedded concretely.
-/

/-- One RGB pixel: red, green, blue channel values (0..255 in well-formed
images). -/
abbrev RGB := Nat × Nat × Nat

def rgbDefault : RGB := (0, 0, 0)

/-- An in-memory raster image: width, height and a row-major pixel list
(index `y * width + x`). -/
structure Img where
  width : Nat
  height : Nat
  pixels : List RGB
deriving DecidableEq, Repr

/-- Well-formedness of an image: positive dimensions, the pixel list has
exactly `width * height` entries, and every channel is a byte. -/
def Img.Wf (img : Img) : Prop :=
  0 < img.width ∧ 0 < img.height ∧
    img.pixels.length = img.width * img.height ∧
    ∀ p ∈ img.pixels, p.1 < 256 ∧ p.2.1 < 256 ∧ p.2.2 < 256

instance (img : Img) : Decidable img.Wf := by
  unfold Img.Wf; infer_instance

/-- Python exceptions that the embedded code can raise. -/
inductive PyErr where
  | valueError (msg : String)
  | typeError
  | zeroDivisionError
  | indexError
deriving DecidableEq, Repr

/-- `true` on `Except.ok`: the Python call returned normally. -/
def isOkE {α : Type} (e : Except PyErr α) : Bool :=
  match e with
  | .ok _ => true
  | .error _ => false

instance {ε α : Type} [DecidableEq ε] [DecidableEq α] : DecidableEq (Except ε α) :=
  fun a b =>
    match a, b with
    | .ok x, .ok y =>
      if h : x = y then isTrue (by rw [h]) else isFalse (by intro hc; cases hc; exact h rfl)
    | .error e, .error f =>
      if h : e = f then isTrue (by rw [h]) else isFalse (by intro hc; cases hc; exact h rfl)
    | .ok _, .error _ => isFalse (by intro hc; cases hc)
    | .error _, .ok _ => isFalse (by intro hc; cases hc)

/-- Round-to-floor-and-clip of a rational channel value into 0..255, the
clamping used by Pillow when converting computed float channels back to
`uint8` (`Image.blend` extrapolation branch, `np.clip(..).astype(np.uint8)`). -/
def clip255 (q : ℚ) : Nat :=
  if q ≤ 0 then 0 else if 255 ≤ q then 255 else q.floor.toNat

/-- `PIL.Image.blend(im1, im2, alpha)`: per-channel
`im1 + alpha * (im2 - im1)`, clipped into the valid channel range (both the
interpolation and the extrapolation branch of Pillow's C code clip; the
sub-ulp rounding of the interpolation branch is not inspected by any claim).
Dimensions are taken from `im2` (in every source call site both images have
identical size). -/
def pilBlend (im1 im2 : Img) (alpha : ℚ) : Img :=
  { width := im2.width, height := im2.height,
    pixels := List.ofFn (n := im2.width * im2.height) fun i =>
      let a := im1.pixels.getD i.val rgbDefault
      let b := im2.pixels.getD i.val rgbDefault
      (clip255 ((a.1 : ℚ) + alpha * ((b.1 : ℚ) - (a.1 : ℚ))),
       clip255 ((a.2.1 : ℚ) + alpha * ((b.2.1 : ℚ) - (a.2.1 : ℚ))),
       clip255 ((a.2.2 : ℚ) + alpha * ((b.2.2 : ℚ) - (a.2.2 : ℚ)))) }

/-- The all-black image of the same size as `img`:
`Image.new(image.mode, image.size, 0)`, the degenerate image of
`ImageEnhance.Brightness`. -/
def blackImage (img : Img) : Img :=
  { width := img.width, height := img.height,
    pixels := List.replicate (img.width * img.height) rgbDefault }

/-- Pillow nearest-neighbour resize to `W × H` (the pixel-level semantics of
`Image.resize(size, Image.NEAREST)`): destination pixel `(x, y)` samples the
source at `(⌊(x + 1/2)·srcW/W⌋, ⌊(y + 1/2)·srcH/H⌋)`; samples that fall
outside the source (only possible for an empty source) read as black fill. -/
def resizeNearest (img : Img) (W H : Nat) : Img :=
  { width := W, height := H,
    pixels := List.ofFn (n := W * H) fun i =>
      let x := i.val % W
      let y := i.val / W
      let sx := ((2 * x + 1) * img.width) / (2 * W)
      let sy := ((2 * y + 1) * img.height) / (2 * H)
      if sx < img.width ∧ sy < img.height then
        img.pixels.getD (sy * img.width + sx) rgbDefault
      else rgbDefault }

/-- `Image.resize((W, H), Image.NEAREST)` including Pillow's size validation:
a requested dimension below 1 raises `ValueError("height and width must be > 0")`. -/
def pil_resize_nearest (img : Img) (W H : Int) : Except PyErr Img :=
  if W < 1 ∨ H < 1 then .error (.valueError "height and width must be > 0")
  else .ok (resizeNearest img W.toNat H.toNat)

/-- The third-party primitives (OpenCV / Pillow / NumPy internals) whose
pixel-level output no claim inspects.  Each is a total function, as the
corresponding library call returns normally on the inputs at which the
embedded code invokes it.  The `pil_to_cv2` / `cv2_to_pil` RGB↔BGR
conversions of src/utils/helpers.py are absorbed into the OpenCV fields. -/
structure LibPrims where
  /-- `cv2.getRotationMatrix2D` about the image centre followed by
  `cv2.warpAffine` on the same-size canvas (angle in degrees). -/
  warpAffineRotate : Img → ℚ → Img
  /-- Degenerate image of `ImageEnhance.Contrast`: the uniform grey image at
  the rounded mean luminance of the input. -/
  contrastDegenerate : Img → Img
  /-- Degenerate image of `ImageEnhance.Color`: the greyscale conversion of
  the input. -/
  saturationDegenerate : Img → Img
  /-- Degenerate image of `ImageEnhance.Sharpness`: the SMOOTH-filtered
  input. -/
  sharpnessDegenerate : Img → Img
  /-- `ImageFilter.GaussianBlur(radius)` for a non-negative radius. -/
  gaussianBlurRadius : Img → Int → Img
  /-- `cv2.filter2D` with the normalised horizontal line kernel of the given
  positive size (motion blur). -/
  filter2DMotion : Img → Int → Img
  /-- `PIL` Lanczos resampling: the pixel at flat index `i` of the output of
  `image.resize((W, H), Image.Resampling.LANCZOS)`. -/
  lanczosPix : Img → Nat → Nat → Nat → RGB
  /-- The `np.random.normal(0, sigma, shape)` draw at a given flat index of
  the C-ordered noise array. -/
  normalDraw : ℚ → Nat → ℚ

/-- A concrete instantiation of the library primitives, used to evaluate the
embedding at specific inputs. -/
def idLib : LibPrims :=
  { warpAffineRotate := fun img _ => img
    contrastDegenerate := fun img => blackImage img
    saturationDegenerate := fun img => img
    sharpnessDegenerate := fun img => img
    gaussianBlurRadius := fun img _ => img
    filter2DMotion := fun img _ => img
    lanczosPix := fun img _ _ i => img.pixels.getD i rgbDefault
    normalDraw := fun _ _ => 0 }

/-! ## src/core/augmentations.py — AugmentationEngine -/

/-- `AugmentationEngine.rotate(image, angle)`: identity at angle 0, otherwise
rotation about the centre via OpenCV on the same-size canvas. -/
def rotate (L : LibPrims) (image : Img) (angle : ℚ) : Except PyErr Img :=
  if angle = 0 then .ok image
  else .ok (L.warpAffineRotate image angle)

/-- `AugmentationEngine.flip_horizontal(image)`:
`image.transpose(Image.FLIP_LEFT_RIGHT)` — mirror along the vertical axis. -/
def flip_horizontal (image : Img) : Img :=
  { width := image.width, height := image.height,
    pixels := List.ofFn (n := image.width * image.height) fun i =>
      let x := i.val % image.width
      let y := i.val / image.width
      image.pixels.getD (y * image.width + (image.width - 1 - x)) rgbDefault }

/-- `AugmentationEngine.flip_vertical(image)`:
`image.transpose(Image.FLIP_TOP_BOTTOM)` — mirror along the horizontal axis. -/
def flip_vertical (image : Img) : Img :=
  { width := image.width, height := image.height,
    pixels := List.ofFn (n := image.width * image.height) fun i =>
      let x := i.val % image.width
      let y := i.val / image.width
      image.pixels.getD ((image.height - 1 - y) * image.width + x) rgbDefault }

/-- `AugmentationEngine.adjust_brightness(image, factor)`:
`ImageEnhance.Brightness(image).enhance(factor)`, i.e.
`Image.blend(black, image, factor)`.  Total for every rational factor
(Pillow's blend extrapolates and clips outside [0, 1]; it does not raise). -/
def adjust_brightness (image : Img) (factor : ℚ) : Except PyErr Img :=
  .ok (pilBlend (blackImage image) image factor)

/-- `AugmentationEngine.adjust_contrast(image, factor)`:
`ImageEnhance.Contrast(image).enhance(factor)` — blend of the mean-grey
degenerate image with the input. -/
def adjust_contrast (L : LibPrims) (image : Img) (factor : ℚ) : Except PyErr Img :=
  .ok (pilBlend (L.contrastDegenerate image) image factor)

/-- `AugmentationEngine.adjust_saturation(image, factor)`:
`ImageEnhance.Color(image).enhance(factor)` — blend of the greyscale
degenerate image with the input. -/
def adjust_saturation (L : LibPrims) (image : Img) (factor : ℚ) : Except PyErr Img :=
  .ok (pilBlend (L.saturationDegenerate image) image factor)

/-- `AugmentationEngine.adjust_sharpness(image, factor)`:
`ImageEnhance.Sharpness(image).enhance(factor)` — blend of the smoothed
degenerate image with the input. -/
def adjust_sharpness (L : LibPrims) (image : Img) (factor : ℚ) : Except PyErr Img :=
  .ok (pilBlend (L.sharpnessDegenerate image) image factor)

/-- `AugmentationEngine.add_gaussian_noise(image, sigma=15)`: per-pixel,
per-channel independent normal noise added in float, clipped to 0..255 and
truncated back to `uint8`.  The noise array is filled in C order over the
BGR view used by OpenCV, so the blue channel of flat pixel `i` consumes draw
`3*i`, green `3*i + 1`, red `3*i + 2`. -/
def add_gaussian_noise (L : LibPrims) (image : Img) (sigma : ℚ := 15) : Except PyErr Img :=
  .ok { width := image.width, height := image.height,
        pixels := List.ofFn (n := image.width * image.height) fun i =>
          let p := image.pixels.getD i.val rgbDefault
          (clip255 ((p.1 : ℚ) + L.normalDraw sigma (3 * i.val + 2)),
           clip255 ((p.2.1 : ℚ) + L.normalDraw sigma (3 * i.val + 1)),
           clip255 ((p.2.2 : ℚ) + L.normalDraw sigma (3 * i.val))) }

/-- `AugmentationEngine.gaussian_blur(image, kernel_size=5)`:
`image.filter(ImageFilter.GaussianBlur(radius=kernel_size//2))` with Python
floor division; Pillow raises `ValueError` for a negative radius. -/
def gaussian_blur (L : LibPrims) (image : Img) (kernel_size : Int := 5) : Except PyErr Img :=
  let radius := Int.fdiv kernel_size 2
  if radius < 0 then .error (.valueError "radius must be >= 0")
  else .ok (L.gaussianBlurRadius image radius)

/-- `AugmentationEngine.motion_blur(image, size=15)`: builds the
`size × size` kernel with a single central row of ones divided by `size`,
then `cv2.filter2D`.  `np.zeros((size, size))` raises `ValueError` for a
negative size; indexing row `int((size-1)/2)` of the empty kernel raises
`IndexError` at size 0. -/
def motion_blur (L : LibPrims) (image : Img) (size : Int := 15) : Except PyErr Img :=
  if size < 0 then .error (.valueError "negative dimensions are not allowed")
  else if size = 0 then .error .indexError
  else .ok (L.filter2DMotion image size)

/-- `AugmentationEngine.pixelate(image, pixel_size=5)`: downsample to
`(width // pixel_size, height // pixel_size)` with nearest-neighbour, then
upsample back to the original size with nearest-neighbour.  Python floor
division by 0 raises `ZeroDivisionError`; a resulting dimension below 1 makes
Pillow's resize raise. -/
def pixelate (image : Img) (pixel_size : Int := 5) : Except PyErr Img :=
  if pixel_size = 0 then .error .zeroDivisionError
  else do
    let small ← pil_resize_nearest image
      (Int.fdiv (image.width : Int) pixel_size)
      (Int.fdiv (image.height : Int) pixel_size)
    pil_resize_nearest small (image.width : Int) (image.height : Int)

/-! ## Python values and parameter dictionaries -/

/-- A Python value as stored in an augmentation parameter dictionary. -/
inductive PVal where
  | intV (n : Int)
  | floatV (q : ℚ)
  | boolV (b : Bool)
  | strV (s : String)
  | noneV
deriving DecidableEq, Repr

/-- Numeric view of a Python value (`bool` is an `int` subclass in Python). -/
def PVal.toNum? : PVal → Option ℚ
  | .intV n => some (n : ℚ)
  | .floatV q => some q
  | .boolV b => some (if b then 1 else 0)
  | _ => none

/-- Python `==` on the values occurring here: numeric values compare by
value across `int`/`float`/`bool`; strings compare by content; any
cross-kind comparison is unequal. -/
def pyEq (a b : PVal) : Bool :=
  match a.toNum?, b.toNum? with
  | some x, some y => decide (x = y)
  | _, _ =>
    match a, b with
    | .strV s, .strV t => s == t
    | .noneV, .noneV => true
    | _, _ => false

/-- Python truthiness of a value (`if params.get(...)`). -/
def truthy : PVal → Bool
  | .intV n => n != 0
  | .floatV q => q != 0
  | .boolV b => b
  | .strV s => s != ""
  | .noneV => false

/-- A parameter dictionary: association list from key to value (Python dicts
here always have distinct keys; lookups take the first match). -/
abbrev Params := List (String × PVal)

/-- `d.get(k)` without default: `none` when the key is absent (dict keys
are distinct; the first match is the entry). -/
def pyget (p : Params) (k : String) : Option PVal :=
  match p with
  | [] => Option.none
  | kv :: rest => if kv.1 = k then some kv.2 else pyget rest k

/-- `d.get(k, default)`. -/
def pygetD (p : Params) (k : String) (d : PVal) : PVal :=
  (pyget p k).getD d

/-- `d[k] = v` for a key already present: replace its value in place. -/
def pyset (p : Params) (k : String) (v : PVal) : Params :=
  p.map (fun kv => if kv.1 = k then (k, v) else kv)

/-- `d.copy()`: a structurally fresh dictionary with the same entries. -/
def dictCopy (d : Params) : Params :=
  d.foldr (fun kv acc => kv :: acc) []

/-- Python `str.lower()` on the ASCII names used here: lowercase each
character (a structurally recursive equivalent of `String.toLower`, which
is defined by well-founded recursion and so does not evaluate in proofs). -/
def pyLower (s : String) : String := String.mk (s.data.map Char.toLower)

/-! ## src/config/settings.py -/

def SUPPORTED_FORMATS : List String := ["jpg", "jpeg", "png", "bmp", "tiff"]

def MAX_IMAGE_SIZE : Nat := 2000

def MAX_FILE_SIZE : Nat := 10 * 1024 * 1024

/-- The preset table of src/config/settings.py, keys in source order.  Each
preset also stores a display `name` entry, which is not an augmentation
parameter. -/
def PRESETS : List (String × Params) :=
  [ ("ml_training",
      [ ("name", .strV "ML Training"),
        ("rotation", .intV 15),
        ("flip_horizontal", .boolV true),
        ("brightness", .floatV (12/10)),
        ("contrast", .floatV (11/10)),
        ("gaussian_noise", .boolV true) ]),
    ("creative",
      [ ("name", .strV "Creative"),
        ("saturation", .floatV (15/10)),
        ("sharpness", .floatV (13/10)),
        ("pixelate", .boolV true) ]),
    ("enhancement",
      [ ("name", .strV "Enhancement"),
        ("brightness", .floatV (11/10)),
        ("contrast", .floatV (12/10)),
        ("sharpness", .floatV (12/10)) ]) ]

def presetsLookup (k : String) : Option Params :=
  (PRESETS.find? (fun kv => kv.1 == k)).map (fun kv => kv.2)

/-! ## src/utils/helpers.py -/

/-- Split a character list at every dot. -/
def splitDotAux : List Char → List Char → List (List Char)
  | [], acc => [acc.reverse]
  | c :: rest, acc =>
    if c = '.' then acc.reverse :: splitDotAux rest [] else splitDotAux rest (c :: acc)

/-- The extension (without its dot) that `os.path.splitext(s)[1][1:]`
yields for a plain filename: the text after the last dot, except that a name
whose every character before that dot is itself a dot has no extension. -/
def fileExtension (s : String) : String :=
  let parts := splitDotAux s.data []
  match parts with
  | [] => ""
  | [_] => ""
  | _ =>
    if (parts.dropLast).all (fun t => t.isEmpty) then ""
    else String.mk (parts.getLastD [])

/-- `validate_file_format(filename, supported_formats)`. -/
def validate_file_format (filename : String) (supported_formats : List String) : Bool :=
  if filename == "" then false
  else supported_formats.contains (fileExtension (pyLower filename))

/-- An uploaded file handle: name, byte size (what seek/tell reports) and
the decoding outcome of `Image.open` (`none` when the bytes are not a valid
image). -/
structure FileObj where
  name : String
  byteSize : Nat
  decoded : Option Img

/-- `validate_file_size(file_obj, max_size)`: seek to the end, `tell`,
compare. -/
def validate_file_size (file_obj : FileObj) (max_size : Nat) : Bool :=
  file_obj.byteSize ≤ max_size

/-- `Image.resize((W, H), Image.Resampling.LANCZOS)` including Pillow's size
validation; the resampled pixel content comes from the library primitive. -/
def pil_resize_lanczos (L : LibPrims) (img : Img) (W H : Int) : Except PyErr Img :=
  if W < 1 ∨ H < 1 then .error (.valueError "height and width must be > 0")
  else .ok { width := W.toNat, height := H.toNat,
             pixels := List.ofFn (n := W.toNat * H.toNat) fun i =>
               L.lanczosPix img W.toNat H.toNat i.val }

/-- `resize_if_needed(image, max_size)`: when either dimension exceeds
`max_size`, scale both by `min(max_size/width, max_size/height)` (Python
float division idealised as exact rationals; `int(...)` truncates, which on
these non-negative values is the floor) and resample with Lanczos. -/
def resize_if_needed (L : LibPrims) (image : Img) (max_size : Nat) : Except PyErr Img :=
  if max_size < image.width ∨ max_size < image.height then
    let r : ℚ := min ((max_size : ℚ) / (image.width : ℚ)) ((max_size : ℚ) / (image.height : ℚ))
    pil_resize_lanczos L image ⌊(image.width : ℚ) * r⌋ ⌊(image.height : ℚ) * r⌋
  else .ok image

/-! ## src/core/image_processor.py -/

/-- `ImageProcessor.load_and_validate_image(file_obj)`: format check, size
check, decode, then `resize_if_needed`; any exception inside the `try` block
(decode failure, or the resize raising) is reported as an invalid image
file. -/
def load_and_validate_image (L : LibPrims) (file_obj : FileObj) : Except PyErr Img :=
  if !(validate_file_format file_obj.name SUPPORTED_FORMATS) then
    .error (.valueError "Unsupported file format")
  else if !(validate_file_size file_obj MAX_FILE_SIZE) then
    .error (.valueError "File too large")
  else
    match file_obj.decoded with
    | Option.none => .error (.valueError "Invalid image file")
    | some image =>
      match resize_if_needed L image MAX_IMAGE_SIZE with
      | .ok r => .ok r
      | .error _ => .error (.valueError "Invalid image file")

/-- Pipeline guard `params.get('rotation', 0) != 0`. -/
def rotGuard (params : Params) : Bool :=
  !(pyEq (pygetD params "rotation" (.intV 0)) (.intV 0))

/-- Pipeline guard `params.get(k, 1.0) != 1.0` for the four factors. -/
def facGuard (params : Params) (k : String) : Bool :=
  !(pyEq (pygetD params k (.floatV 1)) (.floatV 1))

/-- Pipeline guard `if params.get(k):` — Python truthiness of the value. -/
def flagGuard (params : Params) (k : String) : Bool :=
  truthy (pygetD params k .noneV)

/-- `self.engine.rotate(result, params['rotation'])`: the stored value is
converted to a number by OpenCV; a non-numeric value raises `TypeError`. -/
def rotateStep (L : LibPrims) (params : Params) (r : Img) : Except PyErr Img :=
  match (pygetD params "rotation" (.intV 0)).toNum? with
  | some a => rotate L r a
  | _ => .error .typeError

def brightnessStep (params : Params) (r : Img) : Except PyErr Img :=
  match (pygetD params "brightness" (.floatV 1)).toNum? with
  | some f => adjust_brightness r f
  | _ => .error .typeError

def contrastStep (L : LibPrims) (params : Params) (r : Img) : Except PyErr Img :=
  match (pygetD params "contrast" (.floatV 1)).toNum? with
  | some f => adjust_contrast L r f
  | _ => .error .typeError

def saturationStep (L : LibPrims) (params : Params) (r : Img) : Except PyErr Img :=
  match (pygetD params "saturation" (.floatV 1)).toNum? with
  | some f => adjust_saturation L r f
  | _ => .error .typeError

def sharpnessStep (L : LibPrims) (params : Params) (r : Img) : Except PyErr Img :=
  match (pygetD params "sharpness" (.floatV 1)).toNum? with
  | some f => adjust_sharpness L r f
  | _ => .error .typeError

/-- One conditional pipeline line `if guard: result = op(result)`, with a
pending exception propagating past it. -/
def guardedBind (c : Bool) (f : Img → Except PyErr Img) (acc : Except PyErr Img) :
    Except PyErr Img :=
  if c then acc.bind f else acc

/-- The eleven pipeline lines of `apply_transformations`, in source order:
guard and operation of each. -/
def stepFns (L : LibPrims) (params : Params) : List (Bool × (Img → Except PyErr Img)) :=
  [ (rotGuard params, rotateStep L params),
    (flagGuard params "flip_horizontal", fun r => .ok (flip_horizontal r)),
    (flagGuard params "flip_vertical", fun r => .ok (flip_vertical r)),
    (facGuard params "brightness", brightnessStep params),
    (facGuard params "contrast", contrastStep L params),
    (facGuard params "saturation", saturationStep L params),
    (facGuard params "sharpness", sharpnessStep L params),
    (flagGuard params "gaussian_noise", fun r => add_gaussian_noise L r),
    (flagGuard params "gaussian_blur", fun r => gaussian_blur L r),
    (flagGuard params "motion_blur", fun r => motion_blur L r),
    (flagGuard params "pixelate", fun r => pixelate r) ]

/-- `ImageProcessor.apply_transformations(image, params)`: start from
`image.copy()`, then the eleven conditional lines in source order, each
consuming the previous `result`. -/
def apply_transformations (L : LibPrims) (image : Img) (params : Params) :
    Except PyErr Img :=
  let result : Except PyErr Img := .ok image
  let result := guardedBind (rotGuard params) (rotateStep L params) result
  let result := guardedBind (flagGuard params "flip_horizontal")
    (fun r => .ok (flip_horizontal r)) result
  let result := guardedBind (flagGuard params "flip_vertical")
    (fun r => .ok (flip_vertical r)) result
  let result := guardedBind (facGuard params "brightness") (brightnessStep params) result
  let result := guardedBind (facGuard params "contrast") (contrastStep L params) result
  let result := guardedBind (facGuard params "saturation") (saturationStep L params) result
  let result := guardedBind (facGuard params "sharpness") (sharpnessStep L params) result
  let result := guardedBind (flagGuard params "gaussian_noise")
    (fun r => add_gaussian_noise L r) result
  let result := guardedBind (flagGuard params "gaussian_blur")
    (fun r => gaussian_blur L r) result
  let result := guardedBind (flagGuard params "motion_blur")
    (fun r => motion_blur L r) result
  let result := guardedBind (flagGuard params "pixelate") (fun r => pixelate r) result
  result

/-- `ImageProcessor.get_preset_params(preset_name)`: case-insensitive lookup,
then `preset.copy() if preset else {}` (an absent key, like a falsy empty
dictionary, yields the empty parameter set). -/
def get_preset_params (preset_name : String) : Params :=
  match presetsLookup (pyLower preset_name) with
  | some preset => if preset.isEmpty then [] else dictCopy preset
  | Option.none => []

/-! ## Specification-side pipeline (for the refinement claim about
`apply_transformations`): the ordered operation list, an operation applied
exactly when its parameter differs from its identity value (0 for rotation,
1.0 for the four factors, false for the flags). -/

/-- Spec reading of "rotation differs from 0" on a data-model-typed map. -/
def specActiveRot (params : Params) : Bool :=
  match pyget params "rotation" with
  | some (.intV n) => n != 0
  | _ => false

/-- Spec reading of "factor differs from 1.0" on a data-model-typed map. -/
def specActiveFac (params : Params) (k : String) : Bool :=
  match pyget params k with
  | some (.floatV q) => q != 1
  | _ => false

/-- Spec reading of "flag differs from false" on a data-model-typed map. -/
def specActiveFlag (params : Params) (k : String) : Bool :=
  match pyget params k with
  | some (.boolV b) => b
  | _ => false

/-- The spec's fixed operation order with each operation's activity
condition. -/
def specSteps (L : LibPrims) (params : Params) : List (Bool × (Img → Except PyErr Img)) :=
  [ (specActiveRot params, rotateStep L params),
    (specActiveFlag params "flip_horizontal", fun r => .ok (flip_horizontal r)),
    (specActiveFlag params "flip_vertical", fun r => .ok (flip_vertical r)),
    (specActiveFac params "brightness", brightnessStep params),
    (specActiveFac params "contrast", contrastStep L params),
    (specActiveFac params "saturation", saturationStep L params),
    (specActiveFac params "sharpness", sharpnessStep L params),
    (specActiveFlag params "gaussian_noise", fun r => add_gaussian_noise L r),
    (specActiveFlag params "gaussian_blur", fun r => gaussian_blur L r),
    (specActiveFlag params "motion_blur", fun r => motion_blur L r),
    (specActiveFlag params "pixelate", fun r => pixelate r) ]

/-- Modelled from the spec's words: keep, in the fixed order, exactly the
operations whose parameter differs from its identity value, and compose them
sequentially, each step consuming the output of the previous one. -/
def applyTransformationsSpec (L : LibPrims) (image : Img) (params : Params) :
    Except PyErr Img :=
  ((specSteps L params).filterMap (fun cf => if cf.1 then some cf.2 else Option.none)).foldl
    (fun acc f => acc.bind f) (.ok image)

/-- A parameter entry is typed as the data model prescribes: integer
rotation, float factors, boolean flags; unrecognised keys are
unconstrained. -/
def wtVal (kv : String × PVal) : Bool :=
  if kv.1 == "rotation" then
    match kv.2 with | .intV _ => true | _ => false
  else if kv.1 ∈ ["brightness", "contrast", "saturation", "sharpness"] then
    match kv.2 with | .floatV _ => true | _ => false
  else if kv.1 ∈ ["flip_horizontal", "flip_vertical", "gaussian_noise",
                  "gaussian_blur", "motion_blur", "pixelate"] then
    match kv.2 with | .boolV _ => true | _ => false
  else true

/-- A parameter dictionary typed as the data model prescribes. -/
def WellTyped (p : Params) : Prop := ∀ kv ∈ p, wtVal kv = true

instance (p : Params) : Decidable (WellTyped p) := by
  unfold WellTyped; infer_instance

/-- The eleven parameter keys `apply_transformations` recognises. -/
def recognizedKeys : List String :=
  ["rotation", "flip_horizontal", "flip_vertical", "brightness", "contrast",
   "saturation", "sharpness", "gaussian_noise", "gaussian_blur", "motion_blur",
   "pixelate"]

/-! ## src/core/batch_generator.py -/

/-- Zero-pad a positive item number to four digits (`f-string {:04d}`). -/
def pad4 (n : Nat) : String :=
  let s := toString n
  String.mk (List.replicate (4 - s.length) '0') ++ s

/-- The output filename of 0-based item `i`: `{base_name}_{i+1:04d}.png`. -/
def outputFilename (base_name : String) (i : Nat) : String :=
  base_name ++ "_" ++ pad4 (i + 1) ++ ".png"

/-- The aggregated result dictionary returned by a batch run. -/
structure GenResult where
  requested : Nat
  generated : Nat
  failed : Nat
  failed_files : List (String × String)
deriving DecidableEq, Repr

/-- One iteration of the batch loop: the whole `try` body of item `i`
(progress callback, random parameters, transformation, PNG save) either
returns normally or raises with a message; on failure the counters and
`failed_files` are updated and the loop continues. -/
def batchStep (base_name : String) (itemOutcome : Nat → Except String Unit)
    (acc : Nat × Nat × List (String × String)) (i : Nat) :
    Nat × Nat × List (String × String) :=
  match itemOutcome i with
  | .ok _ => (acc.1 + 1, acc.2.1, acc.2.2)
  | .error e => (acc.1, acc.2.1 + 1, acc.2.2 ++ [(outputFilename base_name i, e)])

/-- `BatchGenerator.generate_batch(original_image, count, output_folder,
base_name, progress_callback)` after the output folder has been created: the
per-item loop with its per-item exception handler, aggregated into the
result dictionary.  `itemOutcome i` is the outcome of item `i`'s `try`
body. -/
def generate_batch (count : Nat) (base_name : String)
    (itemOutcome : Nat → Except String Unit) : GenResult :=
  let r := (List.range count).foldl (batchStep base_name itemOutcome) (0, 0, [])
  { requested := count, generated := r.1, failed := r.2.1, failed_files := r.2.2 }

/-! ### `_vary_preset_params` and the `random` module -/

/-- The state of Python's global `random` source: the seed it was last
seeded with and how many draws have happened since. -/
structure RandomState where
  sd : Nat
  drawn : Nat
deriving DecidableEq, Repr

/-- Value oracle for `random.randint(lo, hi)`: a function of the seed and
the number of draws already consumed. -/
abbrev RandIntOracle := Nat → Nat → Int → Int → Int

/-- Value oracle for `random.uniform(lo, hi)`. -/
abbrev RandUniformOracle := Nat → Nat → ℚ → ℚ → ℚ

/-- `random.randint(lo, hi)`: deterministic in (seed, draws so far). -/
def randintM (ri : RandIntOracle) (g : RandomState) (lo hi : Int) :
    Int × RandomState :=
  (ri g.sd g.drawn lo hi, ⟨g.sd, g.drawn + 1⟩)

/-- `random.uniform(lo, hi)`: deterministic in (seed, draws so far). -/
def uniformM (ru : RandUniformOracle) (g : RandomState) (lo hi : ℚ) :
    ℚ × RandomState :=
  (ru g.sd g.drawn lo hi, ⟨g.sd, g.drawn + 1⟩)

/-- Python `v + d` for a dictionary value and an `int` (`+=` on the rotation
entry); non-numeric values raise `TypeError`. -/
def pvalAddInt (v : PVal) (d : Int) : Except PyErr PVal :=
  match v with
  | .intV n => .ok (.intV (n + d))
  | .boolV b => .ok (.intV ((if b then 1 else 0) + d))
  | .floatV q => .ok (.floatV (q + (d : ℚ)))
  | _ => .error .typeError

/-- Python `v * u` for a dictionary value and a `float` (`*=` on a factor
entry); the result is a float; non-numeric values raise `TypeError`. -/
def pvalMulRat (v : PVal) (u : ℚ) : Except PyErr PVal :=
  match v with
  | .intV n => .ok (.floatV ((n : ℚ) * u))
  | .boolV b => .ok (.floatV ((if b then (1 : ℚ) else 0) * u))
  | .floatV q => .ok (.floatV (q * u))
  | _ => .error .typeError

/-- `max(-180, min(180, v))` on the rotation entry. -/
def clampRot : PVal → PVal
  | .intV n => .intV (max (-180) (min 180 n))
  | .floatV q => .floatV (max (-180) (min 180 q))
  | v => v

/-- `max(0.1, min(3.0, v))` on a factor entry (always a float at this
point). -/
def clampFac : PVal → PVal
  | .floatV q => .floatV (max (1/10) (min 3 q))
  | v => v

/-- The `if 'rotation' in varied_params:` block. -/
def varyStepRot (ri : RandIntOracle) (pp : Params) (g : RandomState) :
    Except PyErr Params × RandomState :=
  match pyget pp "rotation" with
  | Option.none => (.ok pp, g)
  | some v =>
    let dg := randintM ri g (-10) 10
    match pvalAddInt v dg.1 with
    | .ok vsum => (.ok (pyset pp "rotation" (clampRot vsum)), dg.2)
    | .error e => (.error e, dg.2)

/-- An `if k in varied_params:` factor block with its uniform jitter range. -/
def varyStepFac (ru : RandUniformOracle) (k : String) (lo hi : ℚ)
    (pp : Params) (g : RandomState) : Except PyErr Params × RandomState :=
  match pyget pp k with
  | Option.none => (.ok pp, g)
  | some v =>
    let ug := uniformM ru g lo hi
    match pvalMulRat v ug.1 with
    | .ok vprod => (.ok (pyset pp k (clampFac vprod)), ug.2)
    | .error e => (.error e, ug.2)

/-- Sequencing of the jitter blocks: a raised exception skips the rest. -/
def andThenV (r : Except PyErr Params × RandomState)
    (f : Params → RandomState → Except PyErr Params × RandomState) :
    Except PyErr Params × RandomState :=
  match r with
  | (.ok pp, g) => f pp g
  | e => e

/-- `BatchGenerator._vary_preset_params(preset_params, seed)`: re-seed the
global random source with `seed`, copy the preset, then jitter each of
rotation, brightness, contrast, saturation, sharpness in turn — only when the
key is present — clamping each into its range.  `g0` is the incoming global
random state, overwritten by `random.seed(seed)`. -/
def _vary_preset_params (ri : RandIntOracle) (ru : RandUniformOracle)
    (g0 : RandomState) (preset_params : Params) (seed : Nat) :
    Except PyErr Params × RandomState :=
  let g : RandomState := ⟨seed, 0⟩
  andThenV (varyStepRot ri preset_params g) (fun pp g =>
  andThenV (varyStepFac ru "brightness" (9/10) (11/10) pp g) (fun pp g =>
  andThenV (varyStepFac ru "contrast" (95/100) (105/100) pp g) (fun pp g =>
  andThenV (varyStepFac ru "saturation" (9/10) (11/10) pp g) (fun pp g =>
  varyStepFac ru "sharpness" (95/100) (105/100) pp g))))

/-- The five keys `_vary_preset_params` jitters. -/
def jitterKeys : List String :=
  ["rotation", "brightness", "contrast", "saturation", "sharpness"]

/-- A concrete `randint` oracle that always returns the lower bound. -/
def riLow : RandIntOracle := fun _ _ lo _ => lo

/-- A concrete `uniform` oracle that always returns the lower bound. -/
def ruLow : RandUniformOracle := fun _ _ lo _ => lo

/-- A concrete preset dictionary with a rotation entry, a flag entry, and no
factor entries. -/
def c7base : Params :=
  [("rotation", PVal.intV 175), ("flip_horizontal", PVal.boolV true)]

/-! ## Reference-level (heap) model, for the no-mutation claims.  Python
images and dictionaries are mutable heap objects; a heap is a list of
buffers and an object is its index.  Every Pillow/OpenCV operation used by
the engine returns a freshly allocated image (and `apply_transformations`
starts from `image.copy()`), so each pipeline step reads its input buffer
and appends a new one; nothing writes an existing buffer. -/

def imgDefault : Img := { width := 0, height := 0, pixels := [] }

/-- Run the pipeline lines at heap level: an active line reads the current
buffer, applies the value-level operation and allocates the result as a new
buffer; an exception stops the run. -/
def runStepsHeap : List (Bool × (Img → Except PyErr Img)) → List Img → Nat →
    List Img × Except PyErr Nat
  | [], h, i => (h, .ok i)
  | cf :: rest, h, i =>
    if cf.1 then
      match cf.2 (h.getD i imgDefault) with
      | .ok img => runStepsHeap rest (h ++ [img]) h.length
      | .error e => (h, .error e)
    else runStepsHeap rest h i

/-- `apply_transformations` at heap level: `result = image.copy()` allocates
a fresh buffer, then the eleven conditional lines run on it. -/
def apply_transformations_heap (L : LibPrims) (h : List Img) (image : Nat)
    (params : Params) : List Img × Except PyErr Nat :=
  runStepsHeap (stepFns L params) (h ++ [h.getD image imgDefault]) h.length

/-- `get_preset_params` at heap level over a heap of dictionaries: the
stored preset lives at `stored key`; the call allocates a fresh copy (or a
fresh empty dictionary) and returns its index. -/
def get_preset_params_heap (dh : List Params) (stored : String → Option Nat)
    (preset_name : String) : List Params × Nat :=
  match stored (pyLower preset_name) with
  | some i => (dh ++ [dictCopy (dh.getD i [])], dh.length)
  | Option.none => (dh ++ [[]], dh.length)

/-- Mutation of the dictionary at index `i` of a dictionary heap (what a
caller writing into the returned mapping does). -/
def heapSetDict (dh : List Params) (i : Nat) (d : Params) : List Params :=
  dh.set i d

/-! ## Spec-side pixelate and concrete evaluation objects -/

/-- Modelled from the spec's words for pixelate: downsample to
`floor(width/blockSize) × floor(height/blockSize)` with nearest-neighbour,
then upsample back to the original size with nearest-neighbour. -/
def pixelateSpec (img : Img) (blockSize : Nat) : Img :=
  resizeNearest (resizeNearest img (img.width / blockSize) (img.height / blockSize))
    img.width img.height

/-- A 1×2 image whose two pixels differ. -/
def imgCE : Img := { width := 1, height := 2, pixels := [(0, 0, 0), (255, 255, 255)] }

/-- A 2×2 image with distinct pixels. -/
def img2 : Img :=
  { width := 2, height := 2, pixels := [(1, 2, 3), (4, 5, 6), (7, 8, 9), (10, 11, 12)] }

/-- A 4000×3000 image (the spec's oversize resize example). -/
def bigImg : Img :=
  { width := 4000, height := 3000, pixels := List.replicate (4000 * 3000) (0, 0, 0) }

def bigFile : FileObj := { name := "photo.png", byteSize := 1000, decoded := some bigImg }

/-- An 800×600 image (the spec's within-limits example). -/
def smallImg : Img :=
  { width := 800, height := 600, pixels := List.replicate (800 * 600) (0, 0, 0) }

def smallFile : FileObj := { name := "photo.jpg", byteSize := 1000, decoded := some smallImg }

/-- A 3000×1 image: downscaling it by 2/3 drives the height to 0. -/
def wideImg : Img :=
  { width := 3000, height := 1, pixels := List.replicate 3000 (0, 0, 0) }

def wideFile : FileObj := { name := "wide.png", byteSize := 1000, decoded := some wideImg }

/-- The ml_training preset dictionary (as stored, with its `name` entry). -/
def mlParams : Params :=
  [ ("name", .strV "ML Training"),
    ("rotation", .intV 15),
    ("flip_horizontal", .boolV true),
    ("brightness", .floatV (12/10)),
    ("contrast", .floatV (11/10)),
    ("gaussian_noise", .boolV true) ]

/-- The same augmentation parameters without the unrecognised `name`
entry. -/
def mlParamsNoName : Params :=
  [ ("rotation", .intV 15),
    ("flip_horizontal", .boolV true),
    ("brightness", .floatV (12/10)),
    ("contrast", .floatV (11/10)),
    ("gaussian_noise", .boolV true) ]

/-- The width the spec's downscale formula produces for an oversize image:
`int(width * min(MAX/width, MAX/height))`. -/
def resizeTargetW (img : Img) : Int :=
  ⌊(img.width : ℚ) * min ((MAX_IMAGE_SIZE : ℚ) / (img.width : ℚ))
    ((MAX_IMAGE_SIZE : ℚ) / (img.height : ℚ))⌋

/-- The height the spec's downscale formula produces for an oversize
image. -/
def resizeTargetH (img : Img) : Int :=
  ⌊(img.height : ℚ) * min ((MAX_IMAGE_SIZE : ℚ) / (img.width : ℚ))
    ((MAX_IMAGE_SIZE : ℚ) / (img.height : ℚ))⌋

/-! ## Helper lemmas -/

theorem batch_fold_spec (base : String) (oc : Nat → Except String Unit) (count : Nat) :
    ((List.range count).foldl (batchStep base oc) (0, 0, [])).1 +
      ((List.range count).foldl (batchStep base oc) (0, 0, [])).2.1 = count ∧
    ((List.range count).foldl (batchStep base oc) (0, 0, [])).2.2 =
      (List.range count).filterMap (fun i =>
        match oc i with
        | .ok _ => Option.none
        | .error e => some (outputFilename base i, e)) := by
  induction count with
  | zero => simp
  | succ n ih =>
    obtain ⟨ih1, ih2⟩ := ih
    rw [List.range_succ, List.foldl_append, List.filterMap_append]
    rcases h : oc n with e | u <;>
      simp only [List.foldl_cons, List.foldl_nil, List.filterMap_cons,
        List.filterMap_nil, batchStep, h] <;>
      exact ⟨by omega, by simp [ih2]⟩

theorem ofFn_getD_lt (n : Nat) (f : Fin n → RGB) (j : Nat) (hj : j < n) (d : RGB) :
    (List.ofFn f).getD j d = f ⟨j, hj⟩ := by
  rw [List.getD_eq_getElem _ _ (by simpa using hj)]
  simp [List.getElem_ofFn]

theorem reindex_invol (px : List RGB) (n : Nat) (m : Nat → Nat)
    (hlen : px.length = n) (hb : ∀ i, i < n → m i < n)
    (hinv : ∀ i, i < n → m (m i) = i) :
    List.ofFn (n := n) (fun i =>
      (List.ofFn (n := n) (fun j => px.getD (m j.val) rgbDefault)).getD (m i.val)
        rgbDefault) = px := by
  apply List.ext_getElem (by simp [hlen])
  intro j hj1 hj2
  have hjn : j < n := by simpa using hj1
  rw [List.getElem_ofFn]
  rw [ofFn_getD_lt n _ (m j) (hb j hjn)]
  simp only
  rw [hinv j hjn]
  have hjl : j < px.length := by omega
  exact List.getD_eq_getElem px rgbDefault hjl

theorem foldl_guarded_filterMap (l : List (Bool × (Img → Except PyErr Img)))
    (a : Except PyErr Img) :
    l.foldl (fun acc cf => guardedBind cf.1 cf.2 acc) a =
      (l.filterMap (fun cf => if cf.1 then some cf.2 else Option.none)).foldl
        (fun acc f => acc.bind f) a := by
  induction l generalizing a with
  | nil => rfl
  | cons cf rest ih =>
    rcases cf with ⟨c, f⟩
    simp only [guardedBind] at ih ⊢
    cases c <;> simp [List.filterMap_cons, ih]

theorem apply_eq_fold (L : LibPrims) (image : Img) (params : Params) :
    apply_transformations L image params =
      (stepFns L params).foldl (fun acc cf => guardedBind cf.1 cf.2 acc) (.ok image) := rfl

theorem pyget_mem {p : Params} {k : String} {v : PVal} (h : pyget p k = some v) :
    (k, v) ∈ p := by
  induction p with
  | nil => cases h
  | cons kv rest ih =>
    rcases kv with ⟨k0, v0⟩
    by_cases hq : k0 = k
    · have h2 : (if k0 = k then some v0 else pyget rest k) = some v := h
      rw [if_pos hq] at h2
      cases h2
      cases hq
      exact List.mem_cons_self _ _
    · have h2 : (if k0 = k then some v0 else pyget rest k) = some v := h
      rw [if_neg hq] at h2
      exact List.mem_cons_of_mem _ (ih h2)

theorem rotGuard_eq_spec (p : Params)
    (hs : ∀ v, pyget p "rotation" = some v → ∃ n, v = PVal.intV n) :
    rotGuard p = specActiveRot p := by
  unfold rotGuard specActiveRot pygetD
  cases hp : pyget p "rotation" with
  | none => simp [pyEq, PVal.toNum?]
  | some v =>
    obtain ⟨n, rfl⟩ := hs v hp
    simp only [pyEq, PVal.toNum?, Option.getD_some, specActiveRot, hp, bne]
    by_cases hn : n = 0 <;> simp [hn]

theorem facGuard_eq_spec (p : Params) (k : String)
    (hs : ∀ v, pyget p k = some v → ∃ q, v = PVal.floatV q) :
    facGuard p k = specActiveFac p k := by
  unfold facGuard specActiveFac pygetD
  cases hp : pyget p k with
  | none => simp [pyEq, PVal.toNum?]
  | some v =>
    obtain ⟨q, rfl⟩ := hs v hp
    simp only [pyEq, PVal.toNum?, Option.getD_some, specActiveFac, hp, bne]
    by_cases hq : q = 1 <;> simp [hq]

theorem flagGuard_eq_spec (p : Params) (k : String)
    (hs : ∀ v, pyget p k = some v → ∃ b, v = PVal.boolV b) :
    flagGuard p k = specActiveFlag p k := by
  unfold flagGuard specActiveFlag pygetD
  cases hp : pyget p k with
  | none => simp [truthy]
  | some v =>
    obtain ⟨b, rfl⟩ := hs v hp
    simp [truthy]

/-! ## Claim theorems -/

/-- C3: for every image, every count and any per-item outcomes,
`generate_batch` returns `requested = count`, `generated + failed = count`,
and `failed_files` holds exactly one `(filename, message)` pair per failed
item, in item order; a failure at item `i` does not abort the batch — every
one of the `count` items contributes its outcome. -/
theorem c3_generate_batch_aggregates (count : Nat) (base_name : String)
    (itemOutcome : Nat → Except String Unit) :
    (generate_batch count base_name itemOutcome).requested = count ∧
    (generate_batch count base_name itemOutcome).generated +
      (generate_batch count base_name itemOutcome).failed = count ∧
    (generate_batch count base_name itemOutcome).failed_files =
      (List.range count).filterMap (fun i =>
        match itemOutcome i with
        | .ok _ => Option.none
        | .error e => some (outputFilename base_name i, e)) :=
  ⟨rfl, (batch_fold_spec base_name itemOutcome count).1,
    (batch_fold_spec base_name itemOutcome count).2⟩

/-- C9: `flip_horizontal` and `flip_vertical` are involutions on every
well-formed image. -/
theorem c9_flips_involutive (img : Img) (hwf : img.Wf) :
    flip_horizontal (flip_horizontal img) = img ∧
    flip_vertical (flip_vertical img) = img := by
  obtain ⟨hw, hh, hlen, -⟩ := hwf
  rcases img with ⟨w, h, px⟩
  simp only at hw hh hlen
  constructor
  · have hb : ∀ i, i < w * h → (i / w) * w + (w - 1 - i % w) < w * h := by
      intro i hi
      have hx : i % w < w := Nat.mod_lt _ hw
      have hy : i / w < h := by
        rw [Nat.div_lt_iff_lt_mul hw, Nat.mul_comm h w]; exact hi
      calc (i / w) * w + (w - 1 - i % w)
          < (i / w) * w + w := Nat.add_lt_add_left (by omega) _
        _ = (i / w + 1) * w := by ring
        _ ≤ h * w := Nat.mul_le_mul_right w hy
        _ = w * h := Nat.mul_comm h w
    have hinv : ∀ i, i < w * h →
        (((i / w) * w + (w - 1 - i % w)) / w) * w +
          (w - 1 - ((i / w) * w + (w - 1 - i % w)) % w) = i := by
      intro i hi
      have hx : i % w < w := Nat.mod_lt _ hw
      have hq : ((i / w) * w + (w - 1 - i % w)) / w = i / w := by
        rw [Nat.mul_comm (i / w) w, Nat.mul_add_div hw,
          Nat.div_eq_of_lt (show w - 1 - i % w < w by omega)]
        omega
      have hr : ((i / w) * w + (w - 1 - i % w)) % w = w - 1 - i % w := by
        rw [Nat.mul_comm (i / w) w, Nat.mul_add_mod]
        exact Nat.mod_eq_of_lt (by omega)
      rw [hq, hr, Nat.mul_comm (i / w) w]
      have hdm := Nat.div_add_mod i w
      omega
    exact congrArg (Img.mk w h)
      (reindex_invol px (w * h) (fun j => (j / w) * w + (w - 1 - j % w)) hlen hb hinv)
  · have hb : ∀ i, i < w * h → (h - 1 - i / w) * w + i % w < w * h := by
      intro i hi
      have hx : i % w < w := Nat.mod_lt _ hw
      have h1 : h - 1 - i / w + 1 ≤ h := by
        have h2 := Nat.sub_le (h - 1) (i / w)
        omega
      calc (h - 1 - i / w) * w + i % w
          < (h - 1 - i / w) * w + w := Nat.add_lt_add_left hx _
        _ = (h - 1 - i / w + 1) * w := by ring
        _ ≤ h * w := Nat.mul_le_mul_right w h1
        _ = w * h := Nat.mul_comm h w
    have hinv : ∀ i, i < w * h →
        (h - 1 - ((h - 1 - i / w) * w + i % w) / w) * w +
          ((h - 1 - i / w) * w + i % w) % w = i := by
      intro i hi
      have hx : i % w < w := Nat.mod_lt _ hw
      have hy : i / w < h := by
        rw [Nat.div_lt_iff_lt_mul hw, Nat.mul_comm h w]; exact hi
      have hq : ((h - 1 - i / w) * w + i % w) / w = h - 1 - i / w := by
        rw [Nat.mul_comm (h - 1 - i / w) w, Nat.mul_add_div hw,
          Nat.div_eq_of_lt hx]
        omega
      have hr : ((h - 1 - i / w) * w + i % w) % w = i % w := by
        rw [Nat.mul_comm (h - 1 - i / w) w, Nat.mul_add_mod]
        exact Nat.mod_eq_of_lt hx
      rw [hq, hr]
      have hyy : ∀ y : Nat, y < h → h - 1 - (h - 1 - y) = y := by
        intro y hyv; omega
      rw [hyy (i / w) hy, Nat.mul_comm (i / w) w]
      exact Nat.div_add_mod i w
    exact congrArg (Img.mk w h)
      (reindex_invol px (w * h) (fun j => (h - 1 - j / w) * w + j % w) hlen hb hinv)

/-- Witness for C9 at a concrete 2×2 image. -/
theorem c9_witness :
    flip_horizontal (flip_horizontal img2) = img2 ∧
    flip_vertical (flip_vertical img2) = img2 :=
  c9_flips_involutive img2 (by decide)

/-- C10: the output of `apply_transformations` depends only on the eleven
recognised parameter keys — two maps agreeing on those keys produce equal
outputs on every image; unrecognised keys (such as the presets' `name`
entry) are silently ignored. -/
theorem c10_recognized_keys_only (L : LibPrims) (image : Img) (p1 p2 : Params)
    (hag : ∀ k ∈ recognizedKeys, pyget p1 k = pyget p2 k) :
    apply_transformations L image p1 = apply_transformations L image p2 := by
  have h1 := hag "rotation" (by simp [recognizedKeys])
  have h2 := hag "flip_horizontal" (by simp [recognizedKeys])
  have h3 := hag "flip_vertical" (by simp [recognizedKeys])
  have h4 := hag "brightness" (by simp [recognizedKeys])
  have h5 := hag "contrast" (by simp [recognizedKeys])
  have h6 := hag "saturation" (by simp [recognizedKeys])
  have h7 := hag "sharpness" (by simp [recognizedKeys])
  have h8 := hag "gaussian_noise" (by simp [recognizedKeys])
  have h9 := hag "gaussian_blur" (by simp [recognizedKeys])
  have h10 := hag "motion_blur" (by simp [recognizedKeys])
  have h11 := hag "pixelate" (by simp [recognizedKeys])
  have e1 : rotateStep L p1 = rotateStep L p2 := by
    funext r; unfold rotateStep pygetD; rw [h1]
  have e4 : brightnessStep p1 = brightnessStep p2 := by
    funext r; unfold brightnessStep pygetD; rw [h4]
  have e5 : contrastStep L p1 = contrastStep L p2 := by
    funext r; unfold contrastStep pygetD; rw [h5]
  have e6 : saturationStep L p1 = saturationStep L p2 := by
    funext r; unfold saturationStep pygetD; rw [h6]
  have e7 : sharpnessStep L p1 = sharpnessStep L p2 := by
    funext r; unfold sharpnessStep pygetD; rw [h7]
  simp only [apply_transformations, rotGuard, flagGuard, facGuard, pygetD,
    h1, h2, h3, h4, h5, h6, h7, h8, h9, h10, h11, e1, e4, e5, e6, e7]

/-- Witness for C10: the stored ml_training preset (with its `name` entry)
and the same parameters without it produce the same output. -/
theorem c10_witness :
    (∀ k ∈ recognizedKeys, pyget mlParams k = pyget mlParamsNoName k) ∧
    apply_transformations idLib img2 mlParams =
      apply_transformations idLib img2 mlParamsNoName := by
  have hag : ∀ k ∈ recognizedKeys, pyget mlParams k = pyget mlParamsNoName k := by
    intro k hk
    simp only [recognizedKeys] at hk
    fin_cases hk <;> rfl
  exact ⟨hag, c10_recognized_keys_only idLib img2 mlParams mlParamsNoName hag⟩

/-- C4: on a parameter map typed as the data model prescribes,
`apply_transformations` applies exactly the operations whose parameter
differs from its identity value (0 rotation, 1.0 factors, false flags), in
the fixed order rotation → flips → brightness → contrast → saturation →
sharpness → noise → gaussian blur → motion blur → pixelate, each step
consuming the previous step's output (the sequential fold of the active
steps). -/
theorem c4_fixed_order (L : LibPrims) (image : Img) (params : Params)
    (hwt : WellTyped params) :
    apply_transformations L image params = applyTransformationsSpec L image params := by
  have sr : ∀ v, pyget params "rotation" = some v → ∃ n, v = PVal.intV n := by
    intro v hv
    have hw := hwt _ (pyget_mem hv)
    cases v
    · exact ⟨_, rfl⟩
    · exact absurd (show (false : Bool) = true from hw) (by decide)
    · exact absurd (show (false : Bool) = true from hw) (by decide)
    · exact absurd (show (false : Bool) = true from hw) (by decide)
    · exact absurd (show (false : Bool) = true from hw) (by decide)
  have sf : ∀ k, k ∈ (["brightness", "contrast", "saturation", "sharpness"] : List String) →
      ∀ v, pyget params k = some v → ∃ q, v = PVal.floatV q := by
    intro k hk v hv
    have hw := hwt _ (pyget_mem hv)
    fin_cases hk <;> cases v <;>
      first
        | exact ⟨_, rfl⟩
        | exact absurd (show (false : Bool) = true from hw) (by decide)
  have sh : ∀ k, k ∈ (["flip_horizontal", "flip_vertical", "gaussian_noise",
      "gaussian_blur", "motion_blur", "pixelate"] : List String) →
      ∀ v, pyget params k = some v → ∃ b, v = PVal.boolV b := by
    intro k hk v hv
    have hw := hwt _ (pyget_mem hv)
    fin_cases hk <;> cases v <;>
      first
        | exact ⟨_, rfl⟩
        | exact absurd (show (false : Bool) = true from hw) (by decide)
  have g1 := rotGuard_eq_spec params sr
  have g2 := flagGuard_eq_spec params "flip_horizontal" (sh _ (by simp))
  have g3 := flagGuard_eq_spec params "flip_vertical" (sh _ (by simp))
  have g4 := facGuard_eq_spec params "brightness" (sf _ (by simp))
  have g5 := facGuard_eq_spec params "contrast" (sf _ (by simp))
  have g6 := facGuard_eq_spec params "saturation" (sf _ (by simp))
  have g7 := facGuard_eq_spec params "sharpness" (sf _ (by simp))
  have g8 := flagGuard_eq_spec params "gaussian_noise" (sh _ (by simp))
  have g9 := flagGuard_eq_spec params "gaussian_blur" (sh _ (by simp))
  have g10 := flagGuard_eq_spec params "motion_blur" (sh _ (by simp))
  have g11 := flagGuard_eq_spec params "pixelate" (sh _ (by simp))
  rw [apply_eq_fold, foldl_guarded_filterMap]
  unfold applyTransformationsSpec
  simp only [stepFns, specSteps, g1, g2, g3, g4, g5, g6, g7, g8, g9, g10, g11]

/-- Witness for C4 at the ml_training parameters on a concrete image. -/
theorem c4_witness :
    WellTyped mlParamsNoName ∧
    apply_transformations idLib img2 mlParamsNoName =
      applyTransformationsSpec idLib img2 mlParamsNoName :=
  ⟨by decide, c4_fixed_order idLib img2 mlParamsNoName (by decide)⟩

theorem runStepsHeap_frame (steps : List (Bool × (Img → Except PyErr Img))) :
    ∀ (h : List Img) (i : Nat),
      (∀ k, k < h.length →
        ((runStepsHeap steps h i).1).getD k imgDefault = h.getD k imgDefault) ∧
      h.length ≤ ((runStepsHeap steps h i).1).length ∧
      (∀ j, (runStepsHeap steps h i).2 = .ok j → j = i ∨ h.length ≤ j) := by
  induction steps with
  | nil =>
    intro h i
    refine ⟨fun k hk => rfl, le_refl _, fun j hj => ?_⟩
    simp only [runStepsHeap] at hj
    cases hj
    exact Or.inl rfl
  | cons cf rest ih =>
    intro h i
    simp only [runStepsHeap]
    by_cases hc : cf.1 = true
    · rw [if_pos hc]
      cases hres : cf.2 (h.getD i imgDefault) with
      | ok img =>
        obtain ⟨f1, f2, f3⟩ := ih (h ++ [img]) h.length
        refine ⟨?_, ?_, ?_⟩
        · intro k hk
          rw [f1 k (by simp; omega)]
          exact List.getD_append _ _ _ _ hk
        · calc h.length ≤ (h ++ [img]).length := by simp
            _ ≤ _ := f2
        · intro j hj
          rcases f3 j hj with rfl | hge
          · exact Or.inr (le_refl _)
          · simp only [List.length_append, List.length_cons, List.length_nil] at hge
            exact Or.inr (by omega)
      | error e =>
        exact ⟨fun k hk => rfl, le_refl _, fun j hj => by cases hj⟩
    · rw [if_neg hc]
      exact ih h i

/-- C8: `apply_transformations` never mutates the pixel data of the image
passed in: at heap level every existing buffer is preserved, and the
returned image is a freshly allocated buffer distinct from the input (the
pipeline starts from `image.copy()` and every engine operation returns a new
image). -/
theorem c8_no_mutation (L : LibPrims) (h : List Img) (image : Nat) (params : Params)
    (hi : image < h.length) :
    (∀ k, k < h.length →
      ((apply_transformations_heap L h image params).1).getD k imgDefault =
        h.getD k imgDefault) ∧
    (∀ j, (apply_transformations_heap L h image params).2 = .ok j → j ≠ image) := by
  unfold apply_transformations_heap
  obtain ⟨f1, f2, f3⟩ := runStepsHeap_frame (stepFns L params)
    (h ++ [h.getD image imgDefault]) h.length
  constructor
  · intro k hk
    rw [f1 k (by simp; omega)]
    exact List.getD_append _ _ _ _ hk
  · intro j hj
    rcases f3 j hj with rfl | hge
    · omega
    · simp only [List.length_append, List.length_cons, List.length_nil] at hge
      omega

/-- Witness for C8 on a one-image heap with the empty parameter map. -/
theorem c8_witness :
    (0 : Nat) < [img2].length ∧
    (∀ k, k < [img2].length →
      ((apply_transformations_heap idLib [img2] 0 []).1).getD k imgDefault =
        [img2].getD k imgDefault) ∧
    (∀ j, (apply_transformations_heap idLib [img2] 0 []).2 = .ok j → j ≠ 0) :=
  ⟨by decide, (c8_no_mutation idLib [img2] 0 [] (by decide)).1,
    (c8_no_mutation idLib [img2] 0 [] (by decide)).2⟩

theorem fdiv_two_nonneg_iff (k : Int) : 0 ≤ Int.fdiv k 2 ↔ 0 ≤ k := by
  constructor
  · intro hge
    by_contra hneg
    push_neg at hneg
    have := Int.fdiv_neg' hneg (by norm_num : (0 : Int) < 2)
    omega
  · intro hk
    exact Int.fdiv_nonneg hk (by norm_num)

theorem fdiv_ofNat_ofNat (m n : Nat) :
    Int.fdiv (Int.ofNat m) (Int.ofNat n) = Int.ofNat (m / n) := by
  cases m with
  | zero => rw [Nat.zero_div]; rfl
  | succ m2 => rfl

theorem fdiv_succ_negSucc (m2 n : Nat) :
    Int.fdiv (Int.ofNat (m2 + 1)) (Int.negSucc n) = Int.negSucc (m2 / (n + 1)) := rfl

theorem one_le_fdiv_iff (m : Nat) (b : Int) (hm : 0 < m) (hb : b ≠ 0) :
    1 ≤ Int.fdiv (m : Int) b ↔ 1 ≤ b ∧ b ≤ (m : Int) := by
  cases b with
  | ofNat bn =>
    rw [show ((m : Int)) = Int.ofNat m from rfl, fdiv_ofNat_ofNat]
    simp only [Int.ofNat_eq_natCast]
    cases bn with
    | zero => exact absurd rfl hb
    | succ bn2 =>
      constructor
      · intro hge
        have h1 : 1 ≤ m / (bn2 + 1) := by exact_mod_cast hge
        have h2 : bn2 + 1 ≤ m := by
          by_contra hcon
          push_neg at hcon
          rw [Nat.div_eq_of_lt hcon] at h1
          omega
        exact ⟨by exact_mod_cast Nat.succ_le_succ (Nat.zero_le bn2), by exact_mod_cast h2⟩
      · rintro ⟨-, hble⟩
        have h2 : bn2 + 1 ≤ m := by exact_mod_cast hble
        have h3 : 1 ≤ m / (bn2 + 1) := (Nat.le_div_iff_mul_le (by omega)).2 (by omega)
        exact_mod_cast h3
  | negSucc bm =>
    obtain ⟨m2, rfl⟩ : ∃ m2, m = m2 + 1 := ⟨m - 1, by omega⟩
    rw [show (((m2 + 1 : Nat) : Int)) = Int.ofNat (m2 + 1) from rfl, fdiv_succ_negSucc]
    constructor
    · intro hge
      exact absurd hge (by have := Int.negSucc_lt_zero (m2 / (bm + 1)); omega)
    · rintro ⟨h1, -⟩
      exact absurd h1 (by have := Int.negSucc_lt_zero bm; omega)

theorem pixelate_eq (img : Img) (b : Int) :
    pixelate img b =
      if b = 0 then .error .zeroDivisionError
      else if Int.fdiv (img.width : Int) b < 1 ∨ Int.fdiv (img.height : Int) b < 1 then
        .error (.valueError "height and width must be > 0")
      else if (img.width : Int) < 1 ∨ (img.height : Int) < 1 then
        .error (.valueError "height and width must be > 0")
      else .ok (resizeNearest
        (resizeNearest img (Int.fdiv (img.width : Int) b).toNat
          (Int.fdiv (img.height : Int) b).toNat) img.width img.height) := by
  unfold pixelate pil_resize_nearest
  split_ifs <;> rfl

theorem pixelate_isOk_iff (img : Img) (b : Int) (hw : 0 < img.width) (hh : 0 < img.height) :
    isOkE (pixelate img b) = true ↔
      1 ≤ b ∧ b ≤ (img.width : Int) ∧ b ≤ (img.height : Int) := by
  rw [pixelate_eq]
  by_cases h1 : b = 0
  · rw [if_pos h1]
    subst h1
    constructor
    · intro hok; exact Bool.noConfusion hok
    · rintro ⟨hcon, -⟩; exact absurd hcon (by decide)
  · rw [if_neg h1]
    by_cases h2 : Int.fdiv ((img.width : Int)) b < 1 ∨ Int.fdiv ((img.height : Int)) b < 1
    · rw [if_pos h2]
      constructor
      · intro hok; exact Bool.noConfusion hok
      · rintro ⟨hb1, hbw, hbh⟩
        have hiw := (one_le_fdiv_iff img.width b hw h1).2 ⟨hb1, hbw⟩
        have hih := (one_le_fdiv_iff img.height b hh h1).2 ⟨hb1, hbh⟩
        rcases h2 with h2a | h2b
        · omega
        · omega
    · rw [if_neg h2, if_neg (by omega)]
      constructor
      · intro _
        push_neg at h2
        obtain ⟨h2w, h2h⟩ := h2
        have hfw := (one_le_fdiv_iff img.width b hw h1).1 (by omega)
        have hfh := (one_le_fdiv_iff img.height b hh h1).1 (by omega)
        exact ⟨hfw.1, hfw.2, hfh.2⟩
      · intro _; rfl

theorem motion_blur_isOk_iff (L : LibPrims) (img : Img) (s : Int) :
    isOkE (motion_blur L img s) = true ↔ 1 ≤ s := by
  unfold motion_blur
  by_cases hs1 : s < 0
  · rw [if_pos hs1]
    constructor
    · intro hok; exact Bool.noConfusion hok
    · intro hcon; omega
  · rw [if_neg hs1]
    by_cases hs2 : s = 0
    · rw [if_pos hs2]
      constructor
      · intro hok; exact Bool.noConfusion hok
      · intro hcon; omega
    · rw [if_neg hs2]
      constructor
      · intro _; omega
      · intro _; rfl

theorem gaussian_blur_isOk_iff (L : LibPrims) (img : Img) (k : Int) :
    isOkE (gaussian_blur L img k) = true ↔ 0 ≤ k := by
  simp only [gaussian_blur]
  split_ifs with hr
  · constructor
    · intro hok; exact Bool.noConfusion hok
    · intro hk
      have := (fdiv_two_nonneg_iff k).2 hk
      omega
  · constructor
    · intro _
      exact (fdiv_two_nonneg_iff k).1 (by omega)
    · intro _; rfl

/-- C1 counterexample: the claim says a factor ≤ 0 and a non-positive kernel
size fail with an InvalidParameter error, and that positive sizes never
fail.  In the code `adjust_brightness` with factor 0 succeeds (black image),
`gaussian_blur` with kernel size 0 succeeds (radius 0 is a no-op blur), and
`pixelate` with the positive block size 5 fails on a 2×2 image. -/
theorem c1_counterexample :
    isOkE (adjust_brightness imgCE 0) = true ∧
    isOkE (gaussian_blur idLib imgCE 0) = true ∧
    isOkE (pixelate img2 5) = false :=
  ⟨rfl, rfl, rfl⟩

/-- C1 (amended): the engine performs no parameter validation.  The four
factor operations succeed for every rational factor, including factor ≤ 0;
`gaussian_blur` succeeds exactly for kernel sizes ≥ 0, `motion_blur` exactly
for sizes ≥ 1, and `pixelate` exactly for block sizes between 1 and both
image dimensions (failures are generic ZeroDivision/Index/Value errors, not
a dedicated InvalidParameter); `rotate`, the flips and the noise operation
never fail on well-formed images. -/
theorem c1_no_validation (L : LibPrims) (img : Img) (hwf : img.Wf) (f angle : ℚ)
    (k s b : Int) :
    isOkE (adjust_brightness img f) = true ∧
    isOkE (adjust_contrast L img f) = true ∧
    isOkE (adjust_saturation L img f) = true ∧
    isOkE (adjust_sharpness L img f) = true ∧
    (isOkE (gaussian_blur L img k) = true ↔ 0 ≤ k) ∧
    (isOkE (motion_blur L img s) = true ↔ 1 ≤ s) ∧
    (isOkE (pixelate img b) = true ↔
      1 ≤ b ∧ b ≤ (img.width : Int) ∧ b ≤ (img.height : Int)) ∧
    isOkE (rotate L img angle) = true ∧
    isOkE (add_gaussian_noise L img) = true := by
  obtain ⟨hw, hh, -, -⟩ := hwf
  refine ⟨rfl, rfl, rfl, rfl, gaussian_blur_isOk_iff L img k,
    motion_blur_isOk_iff L img s, pixelate_isOk_iff img b hw hh, ?_, rfl⟩
  unfold rotate
  split_ifs <;> rfl

/-- Witness for C1 at concrete inputs. -/
theorem c1_witness :
    img2.Wf ∧
    (isOkE (adjust_brightness img2 (-1)) = true ∧
     isOkE (adjust_contrast idLib img2 (-1)) = true ∧
     isOkE (adjust_saturation idLib img2 (-1)) = true ∧
     isOkE (adjust_sharpness idLib img2 (-1)) = true ∧
     (isOkE (gaussian_blur idLib img2 4) = true ↔ (0 : Int) ≤ 4) ∧
     (isOkE (motion_blur idLib img2 3) = true ↔ (1 : Int) ≤ 3) ∧
     (isOkE (pixelate img2 2) = true ↔
       (1 : Int) ≤ 2 ∧ (2 : Int) ≤ (img2.width : Int) ∧ (2 : Int) ≤ (img2.height : Int)) ∧
     isOkE (rotate idLib img2 5) = true ∧
     isOkE (add_gaussian_noise idLib img2) = true) :=
  ⟨by decide, c1_no_validation idLib img2 (by decide) (-1) 5 4 3 2⟩

theorem fdiv_natCast_natCast (m n : Nat) :
    Int.fdiv (m : Int) (n : Int) = ((m / n : Nat) : Int) := by
  rw [show ((m : Int)) = Int.ofNat m from rfl, show ((n : Int)) = Int.ofNat n from rfl,
    fdiv_ofNat_ofNat, Int.ofNat_eq_natCast]

theorem resizeNearest_from_unit (small : Img) (w h : Nat)
    (hsw : small.width = 1) (hsh : small.height = 1) :
    resizeNearest small w h =
      { width := w, height := h,
        pixels := List.replicate (w * h) (small.pixels.getD 0 rgbDefault) } := by
  unfold resizeNearest
  congr 1
  apply List.eq_replicate_iff.2
  refine ⟨by simp, ?_⟩
  intro p hp
  rw [List.mem_ofFn] at hp
  obtain ⟨i, hi⟩ := hp
  rw [← hi]
  have hwh : 0 < w * h := Nat.lt_of_le_of_lt (Nat.zero_le i.val) i.isLt
  have hw0 : 0 < w := by
    rcases Nat.eq_zero_or_pos w with h0 | h0
    · rw [h0, Nat.zero_mul] at hwh; exact absurd hwh (lt_irrefl 0)
    · exact h0
  have hh0 : 0 < h := by
    rcases Nat.eq_zero_or_pos h with h0 | h0
    · rw [h0, Nat.mul_zero] at hwh; exact absurd hwh (lt_irrefl 0)
    · exact h0
  have hx : i.val % w < w := Nat.mod_lt _ hw0
  have hy : i.val / w < h := by
    rw [Nat.div_lt_iff_lt_mul hw0, Nat.mul_comm h w]
    exact i.isLt
  simp only [hsw, hsh]
  rw [Nat.div_eq_of_lt (show (2 * (i.val % w) + 1) * 1 < 2 * w by omega),
    Nat.div_eq_of_lt (show (2 * (i.val / w) + 1) * 1 < 2 * h by omega)]
  simp

/-- C2 counterexample: the claim says a block size ≥ width (or height)
still succeeds and degenerates to a single block.  On a 1×2 image with two
distinct pixels and block size 1 (which is ≥ the width), pixelate succeeds
and returns the original image — two distinct pixels, not a single block. -/
theorem c2_counterexample :
    (imgCE.width : Int) ≤ 1 ∧
    pixelate imgCE 1 = Except.ok imgCE ∧
    imgCE.pixels.getD 0 rgbDefault ≠ imgCE.pixels.getD 1 rgbDefault := by
  refine ⟨by decide, by decide, by decide⟩

/-- C2 (amended): for block size b with 1 ≤ b ≤ width and b ≤ height,
pixelate downsamples to `(width / b) × (height / b)` with nearest-neighbour
and upsamples back to the original size with nearest-neighbour; when
b > width or b > height the call fails with the invalid-size ValueError from
the zero-dimension intermediate resize (it is not a degenerate success); at
b = width = height the result degenerates to a single uniform block. -/
theorem c2_pixelate_amended (img : Img) (b : Int) (hwf : img.Wf) (hb : 1 ≤ b) :
    (b ≤ (img.width : Int) → b ≤ (img.height : Int) →
      pixelate img b = Except.ok (pixelateSpec img b.toNat)) ∧
    (((img.width : Int) < b ∨ (img.height : Int) < b) →
      pixelate img b = Except.error (PyErr.valueError "height and width must be > 0")) ∧
    (b = (img.width : Int) → b = (img.height : Int) →
      ∃ c, pixelate img b = Except.ok
        { width := img.width, height := img.height,
          pixels := List.replicate (img.width * img.height) c }) := by
  obtain ⟨hw, hh, hlen, -⟩ := hwf
  obtain ⟨bn, rfl⟩ : ∃ bn : Nat, b = (bn : Int) :=
    ⟨b.toNat, (Int.toNat_of_nonneg (by omega)).symm⟩
  have hbn : 1 ≤ bn := by exact_mod_cast hb
  have hfw := fdiv_natCast_natCast img.width bn
  have hfh := fdiv_natCast_natCast img.height bn
  have hpart1 : (bn : Int) ≤ (img.width : Int) → (bn : Int) ≤ (img.height : Int) →
      pixelate img (bn : Int) = Except.ok (pixelateSpec img ((bn : Int)).toNat) := by
    intro hbw hbh
    have hbw2 : bn ≤ img.width := by exact_mod_cast hbw
    have hbh2 : bn ≤ img.height := by exact_mod_cast hbh
    have hdw : 1 ≤ img.width / bn := (Nat.le_div_iff_mul_le (by omega)).2 (by omega)
    have hdh : 1 ≤ img.height / bn := (Nat.le_div_iff_mul_le (by omega)).2 (by omega)
    rw [pixelate_eq, if_neg (by omega),
      if_neg (by rw [hfw, hfh]; omega), if_neg (by omega), hfw, hfh]
    simp only [pixelateSpec, Int.toNat_natCast]
  refine ⟨hpart1, ?_, ?_⟩
  · intro hlt
    have h0 : img.width / bn = 0 ∨ img.height / bn = 0 := by
      rcases hlt with hl | hl
      · exact Or.inl (Nat.div_eq_of_lt (by exact_mod_cast hl))
      · exact Or.inr (Nat.div_eq_of_lt (by exact_mod_cast hl))
    have hcond : Int.fdiv ((img.width : Int)) ((bn : Nat) : Int) < 1 ∨
        Int.fdiv ((img.height : Int)) ((bn : Nat) : Int) < 1 := by
      rw [hfw, hfh]
      rcases h0 with h0 | h0
      · exact Or.inl (by simp [h0])
      · exact Or.inr (by simp [h0])
    rw [pixelate_eq, if_neg (by omega), if_pos hcond]
  · intro hb1 hb2
    have hbnw : bn = img.width := by exact_mod_cast hb1
    have hbnh : bn = img.height := by exact_mod_cast hb2
    have hres := hpart1 (le_of_eq hb1) (le_of_eq hb2)
    refine ⟨(resizeNearest img (img.width / bn) (img.height / bn)).pixels.getD 0 rgbDefault, ?_⟩
    rw [hres]
    congr 1
    unfold pixelateSpec
    rw [Int.toNat_natCast]
    have hsw : (resizeNearest img (img.width / bn) (img.height / bn)).width = 1 := by
      show img.width / bn = 1
      rw [← hbnw]
      exact Nat.div_self (by omega)
    have hsh : (resizeNearest img (img.width / bn) (img.height / bn)).height = 1 := by
      show img.height / bn = 1
      rw [← hbnh]
      exact Nat.div_self (by omega)
    exact resizeNearest_from_unit _ img.width img.height hsw hsh

/-- Witness for C2 at a 2×2 image with block size 2. -/
theorem c2_witness :
    (1 : Int) ≤ 2 ∧
    (2 : Int) ≤ (img2.width : Int) ∧
    pixelate img2 2 = Except.ok (pixelateSpec img2 ((2 : Int)).toNat) ∧
    (∃ c, pixelate img2 2 = Except.ok
      { width := img2.width, height := img2.height,
        pixels := List.replicate (img2.width * img2.height) c }) := by
  have hthm := c2_pixelate_amended img2 2 (by decide) (by decide)
  exact ⟨by decide, by decide, hthm.1 (by decide) (by decide),
    hthm.2.2 (by decide) (by decide)⟩

/-- C6: `get_preset_params` looks presets up case-insensitively (two names
with the same lowercase form give equal results), returns the empty
parameter set for an unknown name (not an error), and returns a freshly
allocated copy of the stored preset: at heap level the returned dictionary
is a new object, its content equals the stored preset's, and writing into
it leaves the stored preset unchanged. -/
theorem c6_preset_lookup (n1 n2 : String) (hcase : pyLower n1 = pyLower n2) :
    get_preset_params n1 = get_preset_params n2 ∧
    (presetsLookup (pyLower n1) = Option.none → get_preset_params n1 = []) ∧
    (∀ (dh : List Params) (stored : String → Option Nat) (i : Nat) (newd : Params),
      stored (pyLower n1) = some i → i < dh.length →
      (get_preset_params_heap dh stored n1).2 ≠ i ∧
      ((get_preset_params_heap dh stored n1).1).getD
        (get_preset_params_heap dh stored n1).2 [] = dictCopy (dh.getD i []) ∧
      (heapSetDict (get_preset_params_heap dh stored n1).1
        (get_preset_params_heap dh stored n1).2 newd).getD i [] = dh.getD i []) := by
  refine ⟨?_, ?_, ?_⟩
  · unfold get_preset_params
    rw [hcase]
  · intro hmiss
    unfold get_preset_params
    rw [hmiss]
  · intro dh stored i newd hst hlen
    unfold get_preset_params_heap heapSetDict
    rw [hst]
    refine ⟨by simp only; omega, ?_, ?_⟩
    · simp only
      rw [List.getD_append_right dh _ _ _ (le_refl dh.length), Nat.sub_self]
      rfl
    · simp only
      rw [List.getD_eq_getElem?_getD, List.getD_eq_getElem?_getD,
        List.getElem?_set_ne (by omega), List.getElem?_append_left hlen]

/-- Witness for C6: ML_TRAINING vs ml_training, the missing name, and the
heap-level copy freshness at a concrete one-entry dictionary heap. -/
theorem c6_witness :
    pyLower "ML_TRAINING" = pyLower "ml_training" ∧
    get_preset_params "ML_TRAINING" = get_preset_params "ml_training" ∧
    get_preset_params "nonexistent" = [] ∧
    ((get_preset_params_heap [mlParams]
        (fun s => if s = "ml_training" then some 0 else Option.none) "ML_TRAINING").2 ≠ 0 ∧
      ((get_preset_params_heap [mlParams]
          (fun s => if s = "ml_training" then some 0 else Option.none) "ML_TRAINING").1).getD
        (get_preset_params_heap [mlParams]
          (fun s => if s = "ml_training" then some 0 else Option.none) "ML_TRAINING").2 [] =
        dictCopy (([mlParams] : List Params).getD 0 []) ∧
      (heapSetDict (get_preset_params_heap [mlParams]
          (fun s => if s = "ml_training" then some 0 else Option.none) "ML_TRAINING").1
        (get_preset_params_heap [mlParams]
          (fun s => if s = "ml_training" then some 0 else Option.none) "ML_TRAINING").2
        []).getD 0 [] = ([mlParams] : List Params).getD 0 []) := by
  have h := c6_preset_lookup "ML_TRAINING" "ml_training" (by rfl)
  exact ⟨by rfl, h.1, (c6_preset_lookup "nonexistent" "nonexistent" rfl).2.1 (by rfl),
    h.2.2 [mlParams] (fun s => if s = "ml_training" then some 0 else Option.none) 0 []
      (by rfl) (by decide)⟩

theorem floor_scale_max (w h m : Nat) (hw : 0 < w) (hh : 0 < h) :
    ((⌊(w : ℚ) * min ((m : ℚ) / (w : ℚ)) ((m : ℚ) / (h : ℚ))⌋ = (m : Int) ∧
      ⌊(h : ℚ) * min ((m : ℚ) / (w : ℚ)) ((m : ℚ) / (h : ℚ))⌋ ≤ (m : Int)) ∨
     (⌊(h : ℚ) * min ((m : ℚ) / (w : ℚ)) ((m : ℚ) / (h : ℚ))⌋ = (m : Int) ∧
      ⌊(w : ℚ) * min ((m : ℚ) / (w : ℚ)) ((m : ℚ) / (h : ℚ))⌋ ≤ (m : Int))) ∧
    0 ≤ ⌊(w : ℚ) * min ((m : ℚ) / (w : ℚ)) ((m : ℚ) / (h : ℚ))⌋ ∧
    0 ≤ ⌊(h : ℚ) * min ((m : ℚ) / (w : ℚ)) ((m : ℚ) / (h : ℚ))⌋ := by
  have hw0 : ((w : ℚ)) ≠ 0 := by positivity
  have hh0 : ((h : ℚ)) ≠ 0 := by positivity
  rcases le_total ((m : ℚ) / (w : ℚ)) ((m : ℚ) / (h : ℚ)) with hmin | hmin
  · rw [min_eq_left hmin]
    have h1 : (w : ℚ) * ((m : ℚ) / (w : ℚ)) = (m : ℚ) := by field_simp
    have h2 : (h : ℚ) * ((m : ℚ) / (w : ℚ)) ≤ (m : ℚ) := by
      calc (h : ℚ) * ((m : ℚ) / (w : ℚ)) ≤ (h : ℚ) * ((m : ℚ) / (h : ℚ)) :=
            mul_le_mul_of_nonneg_left hmin (by positivity)
        _ = (m : ℚ) := by field_simp
    rw [h1, Int.floor_natCast]
    have h4 : ⌊(h : ℚ) * ((m : ℚ) / (w : ℚ))⌋ ≤ (m : Int) := by
      calc ⌊(h : ℚ) * ((m : ℚ) / (w : ℚ))⌋ ≤ ⌊(m : ℚ)⌋ := Int.floor_le_floor h2
        _ = (m : Int) := Int.floor_natCast m
    exact ⟨Or.inl ⟨rfl, h4⟩, by positivity, Int.floor_nonneg.2 (by positivity)⟩
  · rw [min_eq_right hmin]
    have h1 : (h : ℚ) * ((m : ℚ) / (h : ℚ)) = (m : ℚ) := by field_simp
    have h2 : (w : ℚ) * ((m : ℚ) / (h : ℚ)) ≤ (m : ℚ) := by
      calc (w : ℚ) * ((m : ℚ) / (h : ℚ)) ≤ (w : ℚ) * ((m : ℚ) / (w : ℚ)) :=
            mul_le_mul_of_nonneg_left hmin (by positivity)
        _ = (m : ℚ) := by field_simp
    rw [h1, Int.floor_natCast]
    have h4 : ⌊(w : ℚ) * ((m : ℚ) / (h : ℚ))⌋ ≤ (m : Int) := by
      calc ⌊(w : ℚ) * ((m : ℚ) / (h : ℚ))⌋ ≤ ⌊(m : ℚ)⌋ := Int.floor_le_floor h2
        _ = (m : Int) := Int.floor_natCast m
    exact ⟨Or.inr ⟨rfl, h4⟩, Int.floor_nonneg.2 (by positivity), by positivity⟩

/-- C5 counterexample: the claim says an oversize decoded image is always
downscaled so that the larger dimension equals the maximum.  A 3000×1 image
exceeds the maximum, but the scaled height `int(1 * 2000/3000)` is 0, so
Pillow's resize raises and `load_and_validate_image` reports an invalid
image file instead of downscaling. -/
theorem c5_counterexample :
    2000 < wideImg.width ∧
    load_and_validate_image idLib wideFile =
      Except.error (PyErr.valueError "Invalid image file") := by
  constructor
  · norm_num [wideImg]
  · have hfmt : validate_file_format wideFile.name SUPPORTED_FORMATS = true := by rfl
    have hsz2 : validate_file_size wideFile MAX_FILE_SIZE = true := by decide
    have hfloorH : (⌊(wideImg.height : ℚ) *
        min ((MAX_IMAGE_SIZE : ℚ) / (wideImg.width : ℚ))
          ((MAX_IMAGE_SIZE : ℚ) / (wideImg.height : ℚ))⌋ : Int) = 0 := by
      rw [show ((wideImg.height : ℚ)) *
          min ((MAX_IMAGE_SIZE : ℚ) / (wideImg.width : ℚ))
            ((MAX_IMAGE_SIZE : ℚ) / (wideImg.height : ℚ)) = 2 / 3 by
        norm_num [wideImg, MAX_IMAGE_SIZE, min_def]]
      exact Int.floor_eq_zero_iff.2 (by constructor <;> norm_num)
    have hresize : resize_if_needed idLib wideImg MAX_IMAGE_SIZE =
        Except.error (PyErr.valueError "height and width must be > 0") := by
      simp only [resize_if_needed, pil_resize_lanczos]
      rw [if_pos (show MAX_IMAGE_SIZE < wideImg.width ∨ MAX_IMAGE_SIZE < wideImg.height by
        norm_num [wideImg, MAX_IMAGE_SIZE])]
      rw [if_pos (Or.inr (by rw [hfloorH]; norm_num))]
    simp [load_and_validate_image, hfmt, hsz2,
      show wideFile.decoded = some wideImg from rfl, hresize]

/-- C5 (amended): for a validated file whose decode succeeds,
`load_and_validate_image` returns the image unchanged when neither dimension
exceeds the configured maximum; when a dimension exceeds it, the image is
downscaled by `min(MAX/width, MAX/height)` (truncating to integers) and the
larger output dimension equals the maximum — provided both scaled dimensions
are at least 1 pixel; when the scaled smaller dimension truncates to 0
(aspect ratio beyond MAX:1) the resize raises and the call reports an
invalid image file instead. -/
theorem c5_load_and_resize (L : LibPrims) (f : FileObj) (img : Img)
    (hd : f.decoded = some img)
    (hfmt : validate_file_format f.name SUPPORTED_FORMATS = true)
    (hsz : f.byteSize ≤ MAX_FILE_SIZE)
    (hwf : img.Wf) :
    (img.width ≤ MAX_IMAGE_SIZE → img.height ≤ MAX_IMAGE_SIZE →
      load_and_validate_image L f = Except.ok img) ∧
    ((MAX_IMAGE_SIZE < img.width ∨ MAX_IMAGE_SIZE < img.height) →
      1 ≤ resizeTargetW img → 1 ≤ resizeTargetH img →
      ∃ out, load_and_validate_image L f = Except.ok out ∧
        (out.width : Int) = resizeTargetW img ∧
        (out.height : Int) = resizeTargetH img ∧
        max out.width out.height = MAX_IMAGE_SIZE) ∧
    ((MAX_IMAGE_SIZE < img.width ∨ MAX_IMAGE_SIZE < img.height) →
      (resizeTargetW img < 1 ∨ resizeTargetH img < 1) →
      load_and_validate_image L f =
        Except.error (PyErr.valueError "Invalid image file")) := by
  obtain ⟨hw, hh, -, -⟩ := hwf
  have hsz2 : validate_file_size f MAX_FILE_SIZE = true := by
    unfold validate_file_size; exact decide_eq_true hsz
  have hload : load_and_validate_image L f =
      (match resize_if_needed L img MAX_IMAGE_SIZE with
       | .ok r => .ok r
       | .error _ => .error (.valueError "Invalid image file")) := by
    simp [load_and_validate_image, hfmt, hsz2, hd]
  have hWdef : resizeTargetW img = ⌊(img.width : ℚ) *
      min ((MAX_IMAGE_SIZE : ℚ) / (img.width : ℚ))
        ((MAX_IMAGE_SIZE : ℚ) / (img.height : ℚ))⌋ := rfl
  have hHdef : resizeTargetH img = ⌊(img.height : ℚ) *
      min ((MAX_IMAGE_SIZE : ℚ) / (img.width : ℚ))
        ((MAX_IMAGE_SIZE : ℚ) / (img.height : ℚ))⌋ := rfl
  refine ⟨?_, ?_, ?_⟩
  · intro h1 h2
    rw [hload, show resize_if_needed L img MAX_IMAGE_SIZE = .ok img from by
      simp only [resize_if_needed]
      rw [if_neg (by omega)]]
  · intro hover h1w h1h
    obtain ⟨hm1, hm2, hm3⟩ := floor_scale_max img.width img.height MAX_IMAGE_SIZE hw hh
    have hres : resize_if_needed L img MAX_IMAGE_SIZE =
        pil_resize_lanczos L img (resizeTargetW img) (resizeTargetH img) := by
      simp only [resize_if_needed]
      rw [if_pos hover, ← hWdef, ← hHdef]
    have hok : ∃ out, pil_resize_lanczos L img (resizeTargetW img) (resizeTargetH img) =
        Except.ok out ∧ out.width = (resizeTargetW img).toNat ∧
        out.height = (resizeTargetH img).toNat := by
      simp only [pil_resize_lanczos]
      rw [if_neg (by omega)]
      exact ⟨_, rfl, rfl, rfl⟩
    obtain ⟨out, hout, how, hoh⟩ := hok
    refine ⟨out, ?_, ?_, ?_, ?_⟩
    · rw [hload, hres, hout]
    · rw [how]; exact Int.toNat_of_nonneg (by omega)
    · rw [hoh]; exact Int.toNat_of_nonneg (by omega)
    · rcases hm1 with ⟨he, hle⟩ | ⟨he, hle⟩
      · have h5 : out.width = MAX_IMAGE_SIZE := by
          rw [how, hWdef, he, Int.toNat_natCast]
        have h6 : out.height ≤ MAX_IMAGE_SIZE := by
          rw [hoh, hHdef]
          omega
        rw [h5]
        exact max_eq_left h6
      · have h5 : out.height = MAX_IMAGE_SIZE := by
          rw [hoh, hHdef, he, Int.toNat_natCast]
        have h6 : out.width ≤ MAX_IMAGE_SIZE := by
          rw [how, hWdef]
          omega
        rw [h5]
        exact max_eq_right h6
  · intro hover hlt
    have hres : resize_if_needed L img MAX_IMAGE_SIZE =
        Except.error (PyErr.valueError "height and width must be > 0") := by
      simp only [resize_if_needed, pil_resize_lanczos]
      rw [if_pos hover, if_pos (by rw [← hWdef, ← hHdef]; omega)]
    rw [hload, hres]

/-- Witness for C5: an 800×600 upload is returned unchanged and a 4000×3000
upload is downscaled to 2000×1500. -/
theorem c5_witness :
    smallFile.decoded = some smallImg ∧
    validate_file_format smallFile.name SUPPORTED_FORMATS = true ∧
    load_and_validate_image idLib smallFile = Except.ok smallImg ∧
    (∃ out, load_and_validate_image idLib bigFile = Except.ok out ∧
      out.width = 2000 ∧ out.height = 1500) := by
  have hwfS : smallImg.Wf := by
    refine ⟨by decide, by decide, ?_, ?_⟩
    · show (List.replicate (800 * 600) ((0, 0, 0) : RGB)).length = 800 * 600
      exact List.length_replicate _ _
    · intro p hp
      have hp2 : p = ((0, 0, 0) : RGB) :=
        List.eq_of_mem_replicate (show p ∈ List.replicate (800 * 600) ((0, 0, 0) : RGB) from hp)
      rw [hp2]
      exact ⟨by decide, by decide, by decide⟩
  have hwfB : bigImg.Wf := by
    refine ⟨by decide, by decide, ?_, ?_⟩
    · show (List.replicate (4000 * 3000) ((0, 0, 0) : RGB)).length = 4000 * 3000
      exact List.length_replicate _ _
    · intro p hp
      have hp2 : p = ((0, 0, 0) : RGB) :=
        List.eq_of_mem_replicate (show p ∈ List.replicate (4000 * 3000) ((0, 0, 0) : RGB) from hp)
      rw [hp2]
      exact ⟨by decide, by decide, by decide⟩
  have hS := c5_load_and_resize idLib smallFile smallImg rfl (by rfl) (by decide) hwfS
  have hB := c5_load_and_resize idLib bigFile bigImg rfl (by rfl) (by decide) hwfB
  have hW : resizeTargetW bigImg = 2000 := by
    unfold resizeTargetW
    rw [show bigImg.width = 4000 from rfl, show bigImg.height = 3000 from rfl]
    rw [show ((4000 : Nat) : ℚ) * min ((MAX_IMAGE_SIZE : ℚ) / ((4000 : Nat) : ℚ))
        ((MAX_IMAGE_SIZE : ℚ) / ((3000 : Nat) : ℚ)) = (2000 : ℚ) by
      norm_num [MAX_IMAGE_SIZE, min_def]]
    simp
  have hH : resizeTargetH bigImg = 1500 := by
    unfold resizeTargetH
    rw [show bigImg.width = 4000 from rfl, show bigImg.height = 3000 from rfl]
    rw [show ((3000 : Nat) : ℚ) * min ((MAX_IMAGE_SIZE : ℚ) / ((4000 : Nat) : ℚ))
        ((MAX_IMAGE_SIZE : ℚ) / ((3000 : Nat) : ℚ)) = (1500 : ℚ) by
      norm_num [MAX_IMAGE_SIZE, min_def]]
    simp
  refine ⟨rfl, by rfl, ?_, ?_⟩
  · exact hS.1 (by rw [show smallImg.width = 800 from rfl]; norm_num [MAX_IMAGE_SIZE])
      (by rw [show smallImg.height = 600 from rfl]; norm_num [MAX_IMAGE_SIZE])
  · obtain ⟨out, ho1, ho2, ho3, -⟩ := hB.2.1
      (Or.inl (by rw [show bigImg.width = 4000 from rfl]; norm_num [MAX_IMAGE_SIZE]))
      (by rw [hW]; norm_num) (by rw [hH]; norm_num)
    refine ⟨out, ho1, ?_, ?_⟩
    · rw [hW] at ho2; exact_mod_cast ho2
    · rw [hH] at ho3; exact_mod_cast ho3

/-! ## C7: `_vary_preset_params` — determinism and jitter bounds -/

theorem pyget_pyset_self (p : Params) (k : String) (v v0 : PVal)
    (h : pyget p k = some v0) : pyget (pyset p k v) k = some v := by
  induction p with
  | nil => cases h
  | cons kv rest ih =>
    by_cases hq : kv.1 = k
    · show pyget ((if kv.1 = k then (k, v) else kv) :: pyset rest k v) k = some v
      rw [if_pos hq]
      show (if k = k then some v else pyget (pyset rest k v) k) = some v
      rw [if_pos rfl]
    · show pyget ((if kv.1 = k then (k, v) else kv) :: pyset rest k v) k = some v
      rw [if_neg hq]
      show (if kv.1 = k then some kv.2 else pyget (pyset rest k v) k) = some v
      rw [if_neg hq]
      have h2 : pyget rest k = some v0 := by
        have h3 : (if kv.1 = k then some kv.2 else pyget rest k) = some v0 := h
        rwa [if_neg hq] at h3
      exact ih h2

theorem pyget_pyset_ne (p : Params) (k k2 : String) (v : PVal) (hne : k2 ≠ k) :
    pyget (pyset p k v) k2 = pyget p k2 := by
  induction p with
  | nil => rfl
  | cons kv rest ih =>
    by_cases hq : kv.1 = k
    · show pyget ((if kv.1 = k then (k, v) else kv) :: pyset rest k v) k2 = _
      rw [if_pos hq]
      show (if k = k2 then some v else pyget (pyset rest k v) k2) =
        pyget (kv :: rest) k2
      rw [if_neg (fun hcon => hne hcon.symm)]
      show pyget (pyset rest k v) k2 =
        (if kv.1 = k2 then some kv.2 else pyget rest k2)
      rw [if_neg (by rw [hq]; exact fun hcon => hne hcon.symm)]
      exact ih
    · show pyget ((if kv.1 = k then (k, v) else kv) :: pyset rest k v) k2 = _
      rw [if_neg hq]
      show (if kv.1 = k2 then some kv.2 else pyget (pyset rest k v) k2) =
        (if kv.1 = k2 then some kv.2 else pyget rest k2)
      by_cases hq2 : kv.1 = k2
      · rw [if_pos hq2, if_pos hq2]
      · rw [if_neg hq2, if_neg hq2]
        exact ih

theorem pvalAddInt_ok_shape (v : PVal) (d : Int) (v2 : PVal)
    (h : pvalAddInt v d = .ok v2) :
    (∃ n : Int, v2 = .intV n) ∨ (∃ q : ℚ, v2 = .floatV q) := by
  cases v <;> simp [pvalAddInt] at h
  · exact Or.inl ⟨_, h.symm⟩
  · exact Or.inr ⟨_, h.symm⟩
  · exact Or.inl ⟨_, h.symm⟩

theorem pvalMulRat_ok_float (v : PVal) (u : ℚ) (v2 : PVal)
    (h : pvalMulRat v u = .ok v2) : ∃ q : ℚ, v2 = .floatV q := by
  cases v <;> simp [pvalMulRat] at h
  · exact ⟨_, h.symm⟩
  · exact ⟨_, h.symm⟩
  · exact ⟨_, h.symm⟩

theorem clampRot_bounds (v2 : PVal)
    (hsh : (∃ n : Int, v2 = .intV n) ∨ (∃ q : ℚ, v2 = .floatV q)) :
    (∃ n : Int, clampRot v2 = .intV n ∧ -180 ≤ n ∧ n ≤ 180) ∨
    (∃ q : ℚ, clampRot v2 = .floatV q ∧ -180 ≤ q ∧ q ≤ 180) := by
  rcases hsh with ⟨n, rfl⟩ | ⟨q, rfl⟩
  · exact Or.inl ⟨_, rfl, le_max_left _ _,
      max_le (by norm_num) (min_le_left _ _)⟩
  · exact Or.inr ⟨_, rfl, le_max_left _ _,
      max_le (by norm_num) (min_le_left _ _)⟩

theorem varyStepRot_cases (ri : RandIntOracle) (pp : Params) (g : RandomState) :
    (pyget pp "rotation" = Option.none ∧ varyStepRot ri pp g = (.ok pp, g)) ∨
    (∃ v e, pyget pp "rotation" = some v ∧
      pvalAddInt v (ri g.sd g.drawn (-10) 10) = .error e ∧
      varyStepRot ri pp g = (.error e, ⟨g.sd, g.drawn + 1⟩)) ∨
    (∃ v vsum, pyget pp "rotation" = some v ∧
      pvalAddInt v (ri g.sd g.drawn (-10) 10) = .ok vsum ∧
      varyStepRot ri pp g =
        (.ok (pyset pp "rotation" (clampRot vsum)), ⟨g.sd, g.drawn + 1⟩)) := by
  cases hv : pyget pp "rotation" with
  | none =>
    refine Or.inl ⟨rfl, ?_⟩
    unfold varyStepRot
    rw [hv]
  | some v =>
    have hred : varyStepRot ri pp g =
        (match pvalAddInt v (ri g.sd g.drawn (-10) 10) with
         | .ok vsum =>
             ((.ok (pyset pp "rotation" (clampRot vsum)) : Except PyErr Params),
               (⟨g.sd, g.drawn + 1⟩ : RandomState))
         | .error e => (.error e, ⟨g.sd, g.drawn + 1⟩)) := by
      unfold varyStepRot randintM
      rw [hv]
    cases hm : pvalAddInt v (ri g.sd g.drawn (-10) 10) with
    | ok vsum =>
      rw [hm] at hred
      exact Or.inr (Or.inr ⟨v, vsum, rfl, hm, hred⟩)
    | error e =>
      rw [hm] at hred
      exact Or.inr (Or.inl ⟨v, e, rfl, hm, hred⟩)

theorem varyStepFac_cases (ru : RandUniformOracle) (k : String) (lo hi : ℚ)
    (pp : Params) (g : RandomState) :
    (pyget pp k = Option.none ∧ varyStepFac ru k lo hi pp g = (.ok pp, g)) ∨
    (∃ v e, pyget pp k = some v ∧
      pvalMulRat v (ru g.sd g.drawn lo hi) = .error e ∧
      varyStepFac ru k lo hi pp g = (.error e, ⟨g.sd, g.drawn + 1⟩)) ∨
    (∃ v vprod, pyget pp k = some v ∧
      pvalMulRat v (ru g.sd g.drawn lo hi) = .ok vprod ∧
      varyStepFac ru k lo hi pp g =
        (.ok (pyset pp k (clampFac vprod)), ⟨g.sd, g.drawn + 1⟩)) := by
  cases hv : pyget pp k with
  | none =>
    refine Or.inl ⟨rfl, ?_⟩
    unfold varyStepFac
    rw [hv]
  | some v =>
    have hred : varyStepFac ru k lo hi pp g =
        (match pvalMulRat v (ru g.sd g.drawn lo hi) with
         | .ok vprod =>
             ((.ok (pyset pp k (clampFac vprod)) : Except PyErr Params),
               (⟨g.sd, g.drawn + 1⟩ : RandomState))
         | .error e => (.error e, ⟨g.sd, g.drawn + 1⟩)) := by
      unfold varyStepFac uniformM
      rw [hv]
    cases hm : pvalMulRat v (ru g.sd g.drawn lo hi) with
    | ok vprod =>
      rw [hm] at hred
      exact Or.inr (Or.inr ⟨v, vprod, rfl, hm, hred⟩)
    | error e =>
      rw [hm] at hred
      exact Or.inr (Or.inl ⟨v, e, rfl, hm, hred⟩)

theorem varyStepRot_ok_facts (ri : RandIntOracle) (pp pp1 : Params)
    (g g1 : RandomState) (hstep : varyStepRot ri pp g = (.ok pp1, g1)) :
    (∀ k2, k2 ≠ "rotation" → pyget pp1 k2 = pyget pp k2) ∧
    (pyget pp "rotation" = Option.none →
      pyget pp1 "rotation" = Option.none) ∧
    (∀ v1, pyget pp1 "rotation" = some v1 →
      (∃ n : Int, v1 = PVal.intV n ∧ -180 ≤ n ∧ n ≤ 180) ∨
      (∃ q : ℚ, v1 = PVal.floatV q ∧ -180 ≤ q ∧ q ≤ 180)) ∧
    ((pyget pp "rotation").isSome = true →
      (pyget pp1 "rotation").isSome = true) := by
  rcases varyStepRot_cases ri pp g with ⟨hab, heq⟩ | ⟨v, e, hv, hm, heq⟩ |
    ⟨v, vsum, hv, hm, heq⟩
  · have h2 : ((.ok pp : Except PyErr Params), g) = (.ok pp1, g1) :=
      heq.symm.trans hstep
    have h3 : pp = pp1 := Except.ok.inj (congrArg Prod.fst h2)
    subst h3
    refine ⟨fun k2 _ => rfl, fun h => h, ?_, fun h => h⟩
    intro v1 hv1
    rw [hab] at hv1
    cases hv1
  · have h2 : (Except.error e : Except PyErr Params) = .ok pp1 :=
      congrArg Prod.fst (heq.symm.trans hstep)
    cases h2
  · have h2 : (Except.ok (pyset pp "rotation" (clampRot vsum)) :
        Except PyErr Params) = .ok pp1 :=
      congrArg Prod.fst (heq.symm.trans hstep)
    have h3 : pyset pp "rotation" (clampRot vsum) = pp1 := Except.ok.inj h2
    subst h3
    refine ⟨?_, ?_, ?_, ?_⟩
    · intro k2 hk2
      exact pyget_pyset_ne pp "rotation" k2 (clampRot vsum) hk2
    · intro hnone
      rw [hv] at hnone
      cases hnone
    · intro v1 hv1
      rw [pyget_pyset_self pp "rotation" (clampRot vsum) v hv] at hv1
      have h4 : clampRot vsum = v1 := Option.some.inj hv1
      rw [← h4]
      exact clampRot_bounds vsum (pvalAddInt_ok_shape v _ vsum hm)
    · intro _
      rw [pyget_pyset_self pp "rotation" (clampRot vsum) v hv]
      rfl

theorem varyStepFac_ok_facts (ru : RandUniformOracle) (k : String) (lo hi : ℚ)
    (pp pp1 : Params) (g g1 : RandomState)
    (hstep : varyStepFac ru k lo hi pp g = (.ok pp1, g1)) :
    (∀ k2, k2 ≠ k → pyget pp1 k2 = pyget pp k2) ∧
    (pyget pp k = Option.none → pyget pp1 k = Option.none) ∧
    (∀ v1, pyget pp1 k = some v1 →
      ∃ q : ℚ, v1 = PVal.floatV q ∧ 1/10 ≤ q ∧ q ≤ 3) ∧
    ((pyget pp k).isSome = true → (pyget pp1 k).isSome = true) := by
  rcases varyStepFac_cases ru k lo hi pp g with ⟨hab, heq⟩ | ⟨v, e, hv, hm, heq⟩ |
    ⟨v, vprod, hv, hm, heq⟩
  · have h2 : ((.ok pp : Except PyErr Params), g) = (.ok pp1, g1) :=
      heq.symm.trans hstep
    have h3 : pp = pp1 := Except.ok.inj (congrArg Prod.fst h2)
    subst h3
    refine ⟨fun k2 _ => rfl, fun h => h, ?_, fun h => h⟩
    intro v1 hv1
    rw [hab] at hv1
    cases hv1
  · have h2 : (Except.error e : Except PyErr Params) = .ok pp1 :=
      congrArg Prod.fst (heq.symm.trans hstep)
    cases h2
  · have h2 : (Except.ok (pyset pp k (clampFac vprod)) :
        Except PyErr Params) = .ok pp1 :=
      congrArg Prod.fst (heq.symm.trans hstep)
    have h3 : pyset pp k (clampFac vprod) = pp1 := Except.ok.inj h2
    subst h3
    obtain ⟨q0, rfl⟩ := pvalMulRat_ok_float v (ru g.sd g.drawn lo hi) vprod hm
    refine ⟨?_, ?_, ?_, ?_⟩
    · intro k2 hk2
      exact pyget_pyset_ne pp k k2 (clampFac (PVal.floatV q0)) hk2
    · intro hnone
      rw [hv] at hnone
      cases hnone
    · intro v1 hv1
      rw [pyget_pyset_self pp k (clampFac (PVal.floatV q0)) v hv] at hv1
      have h4 : clampFac (PVal.floatV q0) = v1 := Option.some.inj hv1
      rw [← h4]
      exact ⟨_, rfl, le_max_left _ _, max_le (by norm_num) (min_le_left _ _)⟩
    · intro _
      rw [pyget_pyset_self pp k (clampFac (PVal.floatV q0)) v hv]
      rfl

theorem varyStepRot_ok_of_int (ri : RandIntOracle) (pp : Params)
    (g : RandomState)
    (hty : ∀ v, pyget pp "rotation" = some v → ∃ n : Int, v = PVal.intV n) :
    ∃ pp1 g1, varyStepRot ri pp g = (.ok pp1, g1) := by
  rcases varyStepRot_cases ri pp g with ⟨hab, heq⟩ | ⟨v, e, hv, hm, heq⟩ |
    ⟨v, vsum, hv, hm, heq⟩
  · exact ⟨pp, g, heq⟩
  · obtain ⟨n, rfl⟩ := hty v hv
    simp [pvalAddInt] at hm
  · exact ⟨_, _, heq⟩

theorem varyStepFac_ok_of_num (ru : RandUniformOracle) (k : String) (lo hi : ℚ)
    (pp : Params) (g : RandomState)
    (hty : ∀ v, pyget pp k = some v → ∃ q : ℚ, v = PVal.floatV q) :
    ∃ pp1 g1, varyStepFac ru k lo hi pp g = (.ok pp1, g1) := by
  rcases varyStepFac_cases ru k lo hi pp g with ⟨hab, heq⟩ | ⟨v, e, hv, hm, heq⟩ |
    ⟨v, vprod, hv, hm, heq⟩
  · exact ⟨pp, g, heq⟩
  · obtain ⟨q, rfl⟩ := hty v hv
    simp [pvalMulRat] at hm
  · exact ⟨_, _, heq⟩

theorem andThenV_ok_inv (r : Except PyErr Params × RandomState)
    (f : Params → RandomState → Except PyErr Params × RandomState)
    (pp2 : Params) (h : (andThenV r f).1 = Except.ok pp2) :
    ∃ pa ga, r = (Except.ok pa, ga) ∧ (f pa ga).1 = Except.ok pp2 := by
  rcases r with ⟨r1, ga⟩
  cases r1 with
  | ok pa => exact ⟨pa, ga, rfl, h⟩
  | error e => exact Except.noConfusion (show Except.error e = Except.ok pp2 from h)

theorem fst_ok_pair {r : Except PyErr Params × RandomState} {pp2 : Params}
    (h : r.1 = Except.ok pp2) : r = (Except.ok pp2, r.2) := by
  rcases r with ⟨r1, g⟩
  have h2 : r1 = Except.ok pp2 := h
  rw [h2]

/-- C7: `_vary_preset_params` is reproducible — its result depends only on
the base dictionary and the seed, not on the incoming global random state,
because `random.seed(seed)` overwrites that state — and on a successful run
it perturbs only the five jitter keys present in the base (every other key
keeps its base value, absent keys stay absent, present keys stay present),
clamping a present rotation into [-180, 180] and each present factor into
[0.1, 3.0]; on a dictionary typed as the data model prescribes the run
always succeeds. -/
theorem c7_vary_preset (ri : RandIntOracle) (ru : RandUniformOracle)
    (g1 g2 : RandomState) (base : Params) (seed : Nat) :
    _vary_preset_params ri ru g1 base seed =
      _vary_preset_params ri ru g2 base seed ∧
    (∀ pp2, (_vary_preset_params ri ru g1 base seed).1 = Except.ok pp2 →
      (∀ k, k ∉ jitterKeys → pyget pp2 k = pyget base k) ∧
      (∀ k, pyget base k = Option.none → pyget pp2 k = Option.none) ∧
      (∀ k, (pyget base k).isSome = true → (pyget pp2 k).isSome = true) ∧
      (∀ v, pyget pp2 "rotation" = some v →
        (∃ n : Int, v = PVal.intV n ∧ -180 ≤ n ∧ n ≤ 180) ∨
        (∃ q : ℚ, v = PVal.floatV q ∧ -180 ≤ q ∧ q ≤ 180)) ∧
      (∀ k, k ∈ (["brightness", "contrast", "saturation", "sharpness"] :
          List String) →
        ∀ v, pyget pp2 k = some v →
          ∃ q : ℚ, v = PVal.floatV q ∧ 1/10 ≤ q ∧ q ≤ 3)) ∧
    (WellTyped base →
      ∃ pp2, (_vary_preset_params ri ru g1 base seed).1 = Except.ok pp2) := by
  refine ⟨rfl, ?_, ?_⟩
  · intro pp2 hok
    simp only [_vary_preset_params] at hok
    obtain ⟨pa1, ga1, e1, hok1⟩ := andThenV_ok_inv _ _ _ hok
    obtain ⟨pa2, ga2, e2, hok2⟩ := andThenV_ok_inv _ _ _ hok1
    obtain ⟨pa3, ga3, e3, hok3⟩ := andThenV_ok_inv _ _ _ hok2
    obtain ⟨pa4, ga4, e4, hok4⟩ := andThenV_ok_inv _ _ _ hok3
    have e5 := fst_ok_pair hok4
    have F1 := varyStepRot_ok_facts ri base pa1 ⟨seed, 0⟩ ga1 e1
    have F2 := varyStepFac_ok_facts ru "brightness" (9/10) (11/10)
      pa1 pa2 ga1 ga2 e2
    have F3 := varyStepFac_ok_facts ru "contrast" (95/100) (105/100)
      pa2 pa3 ga2 ga3 e3
    have F4 := varyStepFac_ok_facts ru "saturation" (9/10) (11/10)
      pa3 pa4 ga3 ga4 e4
    have F5 := varyStepFac_ok_facts ru "sharpness" (95/100) (105/100)
      pa4 pp2 ga4 _ e5
    refine ⟨?_, ?_, ?_, ?_, ?_⟩
    · intro k hk
      have hk2 := hk
      simp only [jitterKeys, List.mem_cons, List.mem_singleton, not_or] at hk2
      rw [F5.1 k hk2.2.2.2.2.1, F4.1 k hk2.2.2.2.1, F3.1 k hk2.2.2.1,
        F2.1 k hk2.2.1, F1.1 k hk2.1]
    · intro k hknone
      have n1 : pyget pa1 k = Option.none := by
        by_cases hkk : k = "rotation"
        · subst hkk; exact F1.2.1 hknone
        · rw [F1.1 k hkk]; exact hknone
      have n2 : pyget pa2 k = Option.none := by
        by_cases hkk : k = "brightness"
        · subst hkk; exact F2.2.1 n1
        · rw [F2.1 k hkk]; exact n1
      have n3 : pyget pa3 k = Option.none := by
        by_cases hkk : k = "contrast"
        · subst hkk; exact F3.2.1 n2
        · rw [F3.1 k hkk]; exact n2
      have n4 : pyget pa4 k = Option.none := by
        by_cases hkk : k = "saturation"
        · subst hkk; exact F4.2.1 n3
        · rw [F4.1 k hkk]; exact n3
      by_cases hkk : k = "sharpness"
      · subst hkk; exact F5.2.1 n4
      · rw [F5.1 k hkk]; exact n4
    · intro k hksome
      have p1 : (pyget pa1 k).isSome = true := by
        by_cases hkk : k = "rotation"
        · subst hkk; exact F1.2.2.2 hksome
        · rw [F1.1 k hkk]; exact hksome
      have p2 : (pyget pa2 k).isSome = true := by
        by_cases hkk : k = "brightness"
        · subst hkk; exact F2.2.2.2 p1
        · rw [F2.1 k hkk]; exact p1
      have p3 : (pyget pa3 k).isSome = true := by
        by_cases hkk : k = "contrast"
        · subst hkk; exact F3.2.2.2 p2
        · rw [F3.1 k hkk]; exact p2
      have p4 : (pyget pa4 k).isSome = true := by
        by_cases hkk : k = "saturation"
        · subst hkk; exact F4.2.2.2 p3
        · rw [F4.1 k hkk]; exact p3
      by_cases hkk : k = "sharpness"
      · subst hkk; exact F5.2.2.2 p4
      · rw [F5.1 k hkk]; exact p4
    · intro v hv
      have hchain : pyget pp2 "rotation" = pyget pa1 "rotation" := by
        rw [F5.1 "rotation" (by decide), F4.1 "rotation" (by decide),
          F3.1 "rotation" (by decide), F2.1 "rotation" (by decide)]
      rw [hchain] at hv
      exact F1.2.2.1 v hv
    · intro k hkmem v hv
      fin_cases hkmem
      · have hchain : pyget pp2 "brightness" = pyget pa2 "brightness" := by
          rw [F5.1 "brightness" (by decide), F4.1 "brightness" (by decide),
            F3.1 "brightness" (by decide)]
        rw [hchain] at hv
        exact F2.2.2.1 v hv
      · have hchain : pyget pp2 "contrast" = pyget pa3 "contrast" := by
          rw [F5.1 "contrast" (by decide), F4.1 "contrast" (by decide)]
        rw [hchain] at hv
        exact F3.2.2.1 v hv
      · have hchain : pyget pp2 "saturation" = pyget pa4 "saturation" := by
          rw [F5.1 "saturation" (by decide)]
        rw [hchain] at hv
        exact F4.2.2.1 v hv
      · exact F5.2.2.1 v hv
  · intro hwt
    have hR : ∀ v, pyget base "rotation" = some v →
        ∃ n : Int, v = PVal.intV n := by
      intro v hv
      have hw := hwt _ (pyget_mem hv)
      cases v
      · exact ⟨_, rfl⟩
      · exact absurd (show (false : Bool) = true from hw) (by decide)
      · exact absurd (show (false : Bool) = true from hw) (by decide)
      · exact absurd (show (false : Bool) = true from hw) (by decide)
      · exact absurd (show (false : Bool) = true from hw) (by decide)
    have hF : ∀ k, k ∈ (["brightness", "contrast", "saturation",
        "sharpness"] : List String) →
        ∀ v, pyget base k = some v → ∃ q : ℚ, v = PVal.floatV q := by
      intro k hk v hv
      have hw := hwt _ (pyget_mem hv)
      fin_cases hk <;> cases v <;>
        first
          | exact ⟨_, rfl⟩
          | exact absurd (show (false : Bool) = true from hw) (by decide)
    obtain ⟨pa1, ga1, e1⟩ := varyStepRot_ok_of_int ri base ⟨seed, 0⟩ hR
    have F1 := varyStepRot_ok_facts ri base pa1 ⟨seed, 0⟩ ga1 e1
    have hB : ∀ v, pyget pa1 "brightness" = some v →
        ∃ q : ℚ, v = PVal.floatV q := by
      intro v hv
      exact hF "brightness" (by simp) v
        (by rwa [F1.1 "brightness" (by decide)] at hv)
    obtain ⟨pa2, ga2, e2⟩ := varyStepFac_ok_of_num ru "brightness"
      (9/10) (11/10) pa1 ga1 hB
    have F2 := varyStepFac_ok_facts ru "brightness" (9/10) (11/10)
      pa1 pa2 ga1 ga2 e2
    have hC : ∀ v, pyget pa2 "contrast" = some v →
        ∃ q : ℚ, v = PVal.floatV q := by
      intro v hv
      exact hF "contrast" (by simp) v
        (by rwa [F2.1 "contrast" (by decide), F1.1 "contrast" (by decide)] at hv)
    obtain ⟨pa3, ga3, e3⟩ := varyStepFac_ok_of_num ru "contrast"
      (95/100) (105/100) pa2 ga2 hC
    have F3 := varyStepFac_ok_facts ru "contrast" (95/100) (105/100)
      pa2 pa3 ga2 ga3 e3
    have hS : ∀ v, pyget pa3 "saturation" = some v →
        ∃ q : ℚ, v = PVal.floatV q := by
      intro v hv
      exact hF "saturation" (by simp) v
        (by rwa [F3.1 "saturation" (by decide), F2.1 "saturation" (by decide),
          F1.1 "saturation" (by decide)] at hv)
    obtain ⟨pa4, ga4, e4⟩ := varyStepFac_ok_of_num ru "saturation"
      (9/10) (11/10) pa3 ga3 hS
    have F4 := varyStepFac_ok_facts ru "saturation" (9/10) (11/10)
      pa3 pa4 ga3 ga4 e4
    have hSh : ∀ v, pyget pa4 "sharpness" = some v →
        ∃ q : ℚ, v = PVal.floatV q := by
      intro v hv
      exact hF "sharpness" (by simp) v
        (by rwa [F4.1 "sharpness" (by decide), F3.1 "sharpness" (by decide),
          F2.1 "sharpness" (by decide), F1.1 "sharpness" (by decide)] at hv)
    obtain ⟨pa5, ga5, e5⟩ := varyStepFac_ok_of_num ru "sharpness"
      (95/100) (105/100) pa4 ga4 hSh
    refine ⟨pa5, ?_⟩
    have hall : _vary_preset_params ri ru g1 base seed =
        (Except.ok pa5, ga5) := by
      show andThenV (varyStepRot ri base ⟨seed, 0⟩) _ = _
      rw [e1]
      show andThenV (varyStepFac ru "brightness" (9/10) (11/10) pa1 ga1) _ = _
      rw [e2]
      show andThenV (varyStepFac ru "contrast" (95/100) (105/100) pa2 ga2) _ = _
      rw [e3]
      show andThenV (varyStepFac ru "saturation" (9/10) (11/10) pa3 ga3) _ = _
      rw [e4]
      show varyStepFac ru "sharpness" (95/100) (105/100) pa4 ga4 = _
      exact e5
    rw [hall]

/-- Witness for C7: with oracles returning the lower bound, seed 5, and the
concrete base `c7base`, two calls from different global random states agree,
the flag entry and absent keys are untouched, and the jittered rotation is
clamped into range. -/
theorem c7_witness :
    _vary_preset_params riLow ruLow ⟨0, 0⟩ c7base 5 =
      _vary_preset_params riLow ruLow ⟨99, 7⟩ c7base 5 ∧
    ∃ pp2, (_vary_preset_params riLow ruLow ⟨0, 0⟩ c7base 5).1 =
        Except.ok pp2 ∧
      pyget pp2 "flip_horizontal" = pyget c7base "flip_horizontal" ∧
      pyget pp2 "pixelate" = Option.none ∧
      ((∃ n : Int, pyget pp2 "rotation" = some (PVal.intV n) ∧
          -180 ≤ n ∧ n ≤ 180) ∨
       (∃ q : ℚ, pyget pp2 "rotation" = some (PVal.floatV q) ∧
          -180 ≤ q ∧ q ≤ 180)) := by
  obtain ⟨hdet, hprops, hok⟩ :=
    c7_vary_preset riLow ruLow ⟨0, 0⟩ ⟨99, 7⟩ c7base 5
  obtain ⟨pp2, hpp⟩ := hok (by decide)
  obtain ⟨h1, h2, h3, h4, h5⟩ := hprops pp2 hpp
  refine ⟨hdet, pp2, hpp, h1 "flip_horizontal" (by decide),
    h2 "pixelate" rfl, ?_⟩
  have hps : (pyget pp2 "rotation").isSome = true := h3 "rotation" (by decide)
  cases hvv : pyget pp2 "rotation" with
  | none => rw [hvv] at hps; cases hps
  | some v =>
    rcases h4 v hvv with ⟨n, hvn, hb1, hb2⟩ | ⟨q, hvq, hb1, hb2⟩
    · exact Or.inl ⟨n, by rw [hvn], hb1, hb2⟩
    · exact Or.inr ⟨q, by rw [hvq], hb1, hb2⟩
